import Mathlib

/-!
# cesium-native: upgrade of a b3dm batch table to `EXT_feature_metadata`

A shallow embedding of `Cesium3DTiles/src/upgradeBatchTableToFeatureMetadata.cpp` and of
`Cesium3DTilesSelection/src/CreditSystem.cpp`.

* `rapidjson` : the part of the rapidjson value API the translation unit calls
  (`IsBool`, `IsInt64`, `Get<T>`, ...).  rapidjson is a third-party library; its
  functions are transcribed from its documented behaviour.
* `CesiumGltf` : the glTF object graph the upgrade mutates (buffers, buffer views,
  mesh primitives, the feature-metadata extensions).
* `Cesium3DTiles` : the functions of the translation unit, one Lean definition per
  C++ function, with the mutated references passed in and returned explicitly.
* `Cesium3DTilesSelection` : the credit system, its data members as a structure and
  its methods as functions returning the system after the call.

Machine integers are `Int`/`Nat` with explicit wrap-around.  A run that ends in a
failed assertion, an exception or an out-of-bounds write is the `Except.error` case.
-/

/-! ## Machine arithmetic -/

/-- Value of a 64-bit pattern read as `int64_t` (two's complement). -/
def wrapInt64 (x : Int) : Int := (x + 2 ^ 63) % 2 ^ 64 - 2 ^ 63

/-- Value of a 32-bit pattern read as `int32_t`: the conversion `int32_t(x)`. -/
def wrapInt32 (x : Int) : Int := (x + 2 ^ 31) % 2 ^ 32 - 2 ^ 31

/-- Conversion of a signed value to `size_t` / `uint64_t`. -/
def toUint64 (x : Int) : Nat := (x % 2 ^ 64).toNat

/-- Largest size a `std::vector<std::byte>` accepts (`max_size()`, `PTRDIFF_MAX`);
`resize` beyond it throws `std::length_error`. -/
def vectorMaxSize : Nat := 2 ^ 63 - 1

/-- Position of the most significant set bit, by halving (`fuel` bounds the depth). -/
def log2Aux : Nat → Nat → Nat
  | 0, _ => 0
  | fuel + 1, n => if n < 2 then 0 else log2Aux fuel (n / 2) + 1

/-- Floor of the binary logarithm (`0` at `0`). -/
def log2Floor (n : Nat) : Nat := log2Aux n n

/-! ## IEEE-754 binary interchange formats

`static_cast<double>(int64_t)`, `static_cast<float>(double)` and the comparison in
`IsLosslessFloat` act on bit patterns; values are rounded to nearest, ties to even. -/

/-- Quotient `sig / 2 ^ shift` rounded to nearest, ties to even. -/
def roundShiftRight (sig shift : Nat) : Nat :=
  if shift = 0 then sig
  else
    let q := sig / 2 ^ shift
    let r := sig % 2 ^ shift
    let half := 2 ^ (shift - 1)
    if r > half ∨ (r = half ∧ q % 2 = 1) then q + 1 else q

/-- Bit pattern, in the format with `mbits` stored mantissa bits and `ebits` exponent
bits, of the number `(-1)^neg * sig * 2^exp` rounded to nearest-even; overflow gives
infinity. -/
def encodeBinary (mbits ebits : Nat) (neg : Bool) (sig : Nat) (exp : Int) : Nat :=
  let signBit := if neg then 2 ^ (mbits + ebits) else 0
  if sig = 0 then signBit
  else
    let bias : Int := 2 ^ (ebits - 1) - 1
    let emin : Int := 1 - bias
    let ue : Int := (log2Floor sig : Int) + exp
    let e : Int := max ue emin
    let q : Int := e - mbits
    let n : Nat := if exp ≥ q then sig * 2 ^ (exp - q).toNat else roundShiftRight sig (q - exp).toNat
    let body : Nat := (e - emin).toNat * 2 ^ mbits + n
    let inf : Nat := (2 ^ ebits - 1) * 2 ^ mbits
    signBit + min body inf

/-- Sign, significand and exponent of a finite binary64 bit pattern:
the value is `(-1)^neg * sig * 2^exp`. -/
def decodeDouble (bits : Nat) : Bool × Nat × Int :=
  let neg : Bool := decide (bits / 2 ^ 63 % 2 = 1)
  let e : Nat := bits / 2 ^ 52 % 2 ^ 11
  let m : Nat := bits % 2 ^ 52
  if e = 0 then (neg, m, -1074) else (neg, 2 ^ 52 + m, Int.ofNat e - 1075)

/-- Sign, significand and exponent of a finite binary32 bit pattern. -/
def decodeFloat (bits : Nat) : Bool × Nat × Int :=
  let neg : Bool := decide (bits / 2 ^ 31 % 2 = 1)
  let e : Nat := bits / 2 ^ 23 % 2 ^ 8
  let m : Nat := bits % 2 ^ 23
  if e = 0 then (neg, m, -149) else (neg, 2 ^ 23 + m, Int.ofNat e - 150)

/-- Conversion `static_cast<double>(i)` of an integer: the binary64 bit pattern. -/
def doubleOfInt (i : Int) : Nat := encodeBinary 52 11 (decide (i < 0)) i.natAbs 0

/-- Conversion `static_cast<float>(d)` of a binary64 pattern: the binary32 pattern. -/
def floatOfDouble (bits : Nat) : Nat :=
  let d := decodeDouble bits
  encodeBinary 23 8 d.1 d.2.1 d.2.2

/-- Conversion `static_cast<double>(f)` of a binary32 pattern (always exact). -/
def doubleOfFloat (bits : Nat) : Nat :=
  let f := decodeFloat bits
  encodeBinary 52 11 f.1 f.2.1 f.2.2

/-- Bit pattern of the largest finite `float`, as a `double`. -/
def fltMaxAsDouble : Nat := doubleOfFloat (2 ^ 31 - 2 ^ 23 - 1)

/-- Magnitude part of a binary64 pattern; on finite doubles it orders magnitudes. -/
def doubleMagnitude (bits : Nat) : Nat := bits % 2 ^ 63

/-- Order key of a binary64 pattern: `a <= b` on doubles is `doubleKey a ≤ doubleKey b`
(finite values; `-0.0` and `+0.0` share the key `0`). -/
def doubleKey (bits : Nat) : Int :=
  if bits / 2 ^ 63 % 2 = 1 then -(doubleMagnitude bits : Int) else (doubleMagnitude bits : Int)

/-- Comparison `a <= b` of two doubles given as bit patterns. -/
def doubleLE (a b : Nat) : Bool := decide (doubleKey a ≤ doubleKey b)

/-- Little-endian bytes of the low `n` bytes of `x`: the object representation of an
`n`-byte scalar in a buffer. -/
def bytesLE (n x : Nat) : List Nat := (List.range n).map (fun k => x / 256 ^ k % 256)

/-- Unsigned value of a little-endian byte string. -/
def valueLE : List Nat → Nat
  | [] => 0
  | b :: rest => b + 256 * valueLE rest

/-- Ways a run stops without returning. -/
inductive Abort where
  /-- A `RAPIDJSON_ASSERT` precondition of a rapidjson accessor failed. -/
  | rapidjsonAssert
  /-- The `assert` in `updateExtensionWithJsonNumericProperty` failed. -/
  | assertFailed
  /-- The call `std::vector::resize` threw `std::length_error`. -/
  | lengthError
  /-- A store through the element pointer fell outside the buffer. -/
  | outOfBounds
  deriving DecidableEq, Repr

instance instDecidableEqExcept {ε α : Type} [DecidableEq ε] [DecidableEq α] :
    DecidableEq (Except ε α)
  | .ok a, .ok b =>
    if h : a = b then isTrue (by rw [h]) else isFalse (by intro h2; cases h2; exact h rfl)
  | .error a, .error b =>
    if h : a = b then isTrue (by rw [h]) else isFalse (by intro h2; cases h2; exact h rfl)
  | .ok _, .error _ => isFalse (by intro h; cases h)
  | .error _, .ok _ => isFalse (by intro h; cases h)

/-! ## rapidjson values -/

namespace rapidjson

/-- A parsed JSON value (`rapidjson::Value`).  A number is stored either as an
integer (`int`, when the literal is integral and lies in `[-2^63, 2^64)`) or as a
double (`double`, the binary64 bit pattern; flag `kDoubleFlag` only). -/
inductive Value where
  | null
  | bool (b : Bool)
  | int (i : Int)
  | double (bits : Nat)
  | string (s : String)
  | array (elements : List Value)
  | object (members : List (String × Value))

namespace Value

def IsNull : Value → Bool
  | .null => true
  | _ => false

def IsBool : Value → Bool
  | .bool _ => true
  | _ => false

def IsString : Value → Bool
  | .string _ => true
  | _ => false

def IsArray : Value → Bool
  | .array _ => true
  | _ => false

def IsObject : Value → Bool
  | .object _ => true
  | _ => false

def IsNumber : Value → Bool
  | .int _ => true
  | .double _ => true
  | _ => false

/-- Flag `kIntFlag`: an integer in the `int` (32-bit) range. -/
def IsInt : Value → Bool
  | .int i => decide (-2 ^ 31 ≤ i ∧ i < 2 ^ 31)
  | _ => false

/-- Flag `kUintFlag`: an integer in the `unsigned` (32-bit) range. -/
def IsUint : Value → Bool
  | .int i => decide (0 ≤ i ∧ i < 2 ^ 32)
  | _ => false

/-- Flag `kInt64Flag`: an integer in the `int64_t` range. -/
def IsInt64 : Value → Bool
  | .int i => decide (-2 ^ 63 ≤ i ∧ i < 2 ^ 63)
  | _ => false

/-- Flag `kUint64Flag`: an integer in the `uint64_t` range. -/
def IsUint64 : Value → Bool
  | .int i => decide (0 ≤ i ∧ i < 2 ^ 64)
  | _ => false

/-- Flag `kDoubleFlag`. -/
def IsDouble : Value → Bool
  | .double _ => true
  | _ => false

/-- Accessor `GetInt()`; asserts `kIntFlag`. -/
def GetInt (v : Value) : Except Abort Int :=
  match v with
  | .int i => if v.IsInt then .ok i else .error .rapidjsonAssert
  | _ => .error .rapidjsonAssert

/-- Accessor `GetUint()`; asserts `kUintFlag`. -/
def GetUint (v : Value) : Except Abort Int :=
  match v with
  | .int i => if v.IsUint then .ok i else .error .rapidjsonAssert
  | _ => .error .rapidjsonAssert

/-- Accessor `GetInt64()`; asserts `kInt64Flag`. -/
def GetInt64 (v : Value) : Except Abort Int :=
  match v with
  | .int i => if v.IsInt64 then .ok i else .error .rapidjsonAssert
  | _ => .error .rapidjsonAssert

/-- Accessor `GetUint64()`; asserts `kUint64Flag`. -/
def GetUint64 (v : Value) : Except Abort Int :=
  match v with
  | .int i => if v.IsUint64 then .ok i else .error .rapidjsonAssert
  | _ => .error .rapidjsonAssert

/-- Accessor `GetDouble()`, as a binary64 bit pattern; asserts `IsNumber()`.  A stored
integer is converted with `static_cast<double>`. -/
def GetDouble : Value → Except Abort Nat
  | .double bits => .ok bits
  | .int i => .ok (doubleOfInt i)
  | _ => .error .rapidjsonAssert

/-- Accessor `GetFloat()`, as a binary32 bit pattern: `static_cast<float>(GetDouble())`. -/
def GetFloat (v : Value) : Except Abort Nat :=
  match v.GetDouble with
  | .ok d => .ok (floatOfDouble d)
  | .error e => .error e

/-- Predicate `IsLosslessFloat()`: a number whose double value lies within
`[-FLT_MAX, FLT_MAX]` and survives the round trip through `float`. -/
def IsLosslessFloat (v : Value) : Bool :=
  match v.GetDouble with
  | .error _ => false
  | .ok a =>
    if doubleMagnitude a > doubleMagnitude fltMaxAsDouble then false
    else decide (doubleOfFloat (floatOfDouble a) = a)

/-- Lookup `FindMember(name)` on the member list of an object: the first member with
that name, `none` standing for `MemberEnd()`. -/
def findMember (members : List (String × Value)) (name : String) : Option Value :=
  (members.find? (fun m => m.1 = name)).map (fun m => m.2)

/-- Method `FindMember(name)`; asserts `IsObject()`. -/
def FindMember (v : Value) (name : String) : Except Abort (Option Value) :=
  match v with
  | .object members => .ok (findMember members name)
  | _ => .error .rapidjsonAssert

end Value

/-- Outcome of `Document::Parse`: either `HasParseError()` with its code and byte
offset, or the root value. -/
inductive ParseResult where
  | parseError (code offset : Nat)
  | root (document : Value)

end rapidjson

/-! ## The glTF object graph (`CesiumGltf`)

Only the members the upgrade reads or writes are kept; every other member of these
classes is left as it is by the upgrade. -/

namespace CesiumGltf

/-- A `std::map` / `std::unordered_map` with string keys, as an association list. -/
abbrev StringMap (β : Type) := List (String × β)

namespace StringMap

variable {β : Type}

/-- Lookup `m.find(key)`; `none` stands for `m.end()`. -/
def find (m : StringMap β) (key : String) : Option β :=
  (List.find? (fun e => decide (e.1 = key)) m).map (fun e => e.2)

/-- Insertion `m.emplace(key, value)`: nothing happens when the key is present. -/
def emplace (m : StringMap β) (key : String) (value : β) : StringMap β :=
  if (find m key).isSome then m else m ++ [(key, value)]

/-- Store through `m[key] = value`, or through a reference to the entry of `key`. -/
def assign (m : StringMap β) (key : String) (value : β) : StringMap β :=
  if (find m key).isSome then m.map (fun e => if e.1 = key then (key, value) else e)
  else m ++ [(key, value)]

/-- Removal `m.erase(key)`. -/
def erase (m : StringMap β) (key : String) : StringMap β :=
  m.filter (fun e => !decide (e.1 = key))

end StringMap

/-- Class `Buffer`: `byteLength` and the loaded bytes `cesium.data`. -/
structure Buffer where
  byteLength : Int := 0
  data : List Nat := []
  deriving DecidableEq, Repr

/-- Class `BufferView`. -/
structure BufferView where
  buffer : Int := -1
  byteOffset : Int := 0
  byteLength : Int := 0
  byteStride : Option Int := none
  deriving DecidableEq, Repr

/-- Class `ClassProperty`: `type` is `none` until a type name is assigned. -/
structure ClassProperty where
  name : Option String := none
  type : Option String := none
  deriving DecidableEq, Repr

/-- Class `Class`, the schema class. -/
structure Class where
  properties : StringMap ClassProperty := []
  deriving DecidableEq, Repr

/-- Class `Schema`. -/
structure Schema where
  classes : StringMap Class := []
  deriving DecidableEq, Repr

/-- Class `FeatureTableProperty`. -/
structure FeatureTableProperty where
  bufferView : Int := -1
  deriving DecidableEq, Repr

/-- Class `FeatureTable`. -/
structure FeatureTable where
  classProperty : Option String := none
  count : Int := 0
  properties : StringMap FeatureTableProperty := []
  deriving DecidableEq, Repr

/-- Class `ModelEXT_feature_metadata`, the document-level extension. -/
structure ModelEXT_feature_metadata where
  schema : Option Schema := none
  featureTables : StringMap FeatureTable := []
  deriving DecidableEq, Repr

/-- Class `FeatureIDs`; `attributeName` is its member `attribute`. -/
structure FeatureIDs where
  attributeName : Option String := none
  constant : Int := 0
  divisor : Int := 0
  deriving DecidableEq, Repr

/-- Class `FeatureIDAttribute`. -/
structure FeatureIDAttribute where
  featureTable : String := ""
  featureIds : FeatureIDs := {}
  deriving DecidableEq, Repr

/-- Class `MeshPrimitiveEXT_feature_metadata`, the primitive-level extension. -/
structure MeshPrimitiveEXT_feature_metadata where
  featureIdAttributes : List FeatureIDAttribute := []
  deriving DecidableEq, Repr

/-- Class `MeshPrimitive`: the attribute map (semantic to accessor index) and the
`EXT_feature_metadata` slot of its extensions. -/
structure MeshPrimitive where
  attributes : StringMap Int := []
  extension : Option MeshPrimitiveEXT_feature_metadata := none
  deriving DecidableEq, Repr

/-- Class `Mesh`. -/
structure Mesh where
  primitives : List MeshPrimitive := []
  deriving DecidableEq, Repr

/-- Class `Model`: the document. -/
structure Model where
  buffers : List Buffer := []
  bufferViews : List BufferView := []
  meshes : List Mesh := []
  extension : Option ModelEXT_feature_metadata := none
  deriving DecidableEq, Repr

/-- Modelled from the spec: `ExtensibleObject::addExtension<T>()` is declared in a
header that is not among the sources.  It yields the object's extension of type `T`,
creating a default-constructed one when there is none ("creates, or fetches if already
present"). -/
def addExtension {T : Type} (slot : Option T) (fresh : T) : T :=
  match slot with
  | some existing => existing
  | none => fresh

end CesiumGltf

/-! ## `upgradeBatchTableToFeatureMetadata.cpp` -/

namespace Cesium3DTiles

open rapidjson CesiumGltf

/-- The template argument `T` of `isInRange` and of
`updateExtensionWithJsonNumericProperty`. -/
inductive ElementType where
  | int8 | uint8 | int16 | uint16 | int32 | uint32 | int64 | uint64 | float | double
  deriving DecidableEq, Repr

/-- Operator `sizeof(T)`. -/
def ElementType.sizeOf : ElementType → Nat
  | .int8 => 1 | .uint8 => 1
  | .int16 => 2 | .uint16 => 2
  | .int32 => 4 | .uint32 => 4 | .float => 4
  | .int64 => 8 | .uint64 => 8 | .double => 8

/-- State threaded through the property functions: the document and the two entries
`classProperty` and `featureTableProperty` they receive by reference. -/
abbrev PropertyState := Model × ClassProperty × FeatureTableProperty

/-- Function `updateExtensionWithJsonStringProperty`: an empty body. -/
def updateExtensionWithJsonStringProperty (gltf : Model) (classProperty : ClassProperty)
    (_featureTable : FeatureTable) (featureTableProperty : FeatureTableProperty)
    (_propertyValue : List Value) : Except Abort PropertyState :=
  .ok (gltf, classProperty, featureTableProperty)

/-- Function template `isInRange<T>`: whatever `T` is, the bounds compared against are
`std::numeric_limits<int8_t>::lowest()` and `std::numeric_limits<int8_t>::max()`. -/
def isInRange (_T : ElementType) (value : Int) : Bool :=
  decide (value ≥ -128) && decide (value ≤ 127)

/-- Struct `CompatibleTypes`; every member is initialised to `true`. -/
structure CompatibleTypes where
  isInt8 : Bool := true
  isUint8 : Bool := true
  isInt16 : Bool := true
  isUint16 : Bool := true
  isInt32 : Bool := true
  isUint32 : Bool := true
  isInt64 : Bool := true
  isUint64 : Bool := true
  isFloat32 : Bool := true
  isFloat64 : Bool := true
  isBool : Bool := true
  deriving DecidableEq, Repr

/-- The double literal `2e24`. -/
def lit2e24 : Nat := doubleOfInt (2 * 10 ^ 24)

/-- The double literal `2e53`. -/
def lit2e53 : Nat := doubleOfInt (2 * 10 ^ 53)

/-- The double `-d` for a literal `d`: the sign bit is set. -/
def negDouble (d : Nat) : Nat := d + 2 ^ 63

/-- Payload `data_.n.i64` returned by `GetInt64()` once `IsInt64()` holds. -/
def int64Payload : Value → Int
  | .int i => i
  | _ => 0

/-- Body of the loop of `findCompatibleTypes` for the element `it`.  In the comparisons
with `2e24` and `2e53` the `int64_t` operand is converted to `double`. -/
def findCompatibleTypesStep (result : CompatibleTypes) (it : Value) : CompatibleTypes :=
  if it.IsBool then
    { result with
      isInt8 := false, isUint8 := false, isInt16 := false, isUint16 := false,
      isInt32 := false, isUint32 := false, isInt64 := false, isUint64 := false,
      isFloat32 := false, isFloat64 := false }
  else if it.IsInt64 then
    let value := int64Payload it
    { isInt8 := result.isInt8 && isInRange .int8 value,
      isUint8 := result.isUint8 && isInRange .uint8 value,
      isInt16 := result.isInt16 && isInRange .int16 value,
      isUint16 := result.isUint16 && isInRange .uint16 value,
      isInt32 := result.isInt32 && isInRange .int32 value,
      isUint32 := result.isUint32 && isInRange .uint32 value,
      isInt64 := result.isInt64 && isInRange .int64 value,
      isUint64 := result.isUint64 && isInRange .uint64 value,
      isFloat32 := result.isFloat32 &&
        (doubleLE (negDouble lit2e24) (doubleOfInt value) && doubleLE (doubleOfInt value) lit2e24),
      isFloat64 := result.isFloat64 &&
        (doubleLE (negDouble lit2e53) (doubleOfInt value) && doubleLE (doubleOfInt value) lit2e53),
      isBool := false }
  else if it.IsUint64 then
    { result with
      isInt8 := false, isUint8 := false, isInt16 := false, isUint16 := false,
      isInt32 := false, isUint32 := false, isInt64 := false,
      isFloat32 := false, isFloat64 := false, isBool := false }
  else if it.IsLosslessFloat then
    { isInt8 := false, isUint8 := false, isInt16 := false, isUint16 := false,
      isInt32 := false, isUint32 := false, isInt64 := false, isUint64 := false,
      isFloat32 := true, isFloat64 := true, isBool := false }
  else if it.IsDouble then
    { result with
      isInt8 := false, isUint8 := false, isInt16 := false, isUint16 := false,
      isInt32 := false, isUint32 := false, isInt64 := false, isUint64 := false,
      isFloat32 := false, isFloat64 := true, isBool := false }
  else
    { isInt8 := false, isUint8 := false, isInt16 := false, isUint16 := false,
      isInt32 := false, isUint32 := false, isInt64 := false, isUint64 := false,
      isFloat32 := false, isFloat64 := false, isBool := false }

/-- Function `findCompatibleTypes` on the elements of the JSON array `propertyValue`. -/
def findCompatibleTypes (propertyValue : List Value) : CompatibleTypes :=
  propertyValue.foldl findCompatibleTypesStep {}

/-- Bit pattern of `static_cast<T>(x)` for an integer `x` and an integer type of
`bytes` bytes: reduction modulo `2^(8*bytes)`. -/
def truncateTo (bytes : Nat) (x : Int) : Nat := (x % 2 ^ (8 * bytes)).toNat

/-- Expression `static_cast<T>(it->Get<TRapidJson>())` as the bit pattern of the
result.  `TRapidJson` is `int32_t` for `int8_t` and `int16_t`, `uint32_t` for `uint8_t`
and `uint16_t`, and `T` itself otherwise. -/
def castGet (T : ElementType) (it : Value) : Except Abort Nat :=
  match T with
  | .int8 => it.GetInt.map (truncateTo 1)
  | .uint8 => it.GetUint.map (truncateTo 1)
  | .int16 => it.GetInt.map (truncateTo 2)
  | .uint16 => it.GetUint.map (truncateTo 2)
  | .int32 => it.GetInt.map (truncateTo 4)
  | .uint32 => it.GetUint.map (truncateTo 4)
  | .int64 => it.GetInt64.map (truncateTo 8)
  | .uint64 => it.GetUint64.map (truncateTo 8)
  | .float => it.GetFloat
  | .double => it.GetDouble

/-- Store of `bytes` at byte offset `p` of `data`. -/
def storeBytes (data : List Nat) (p : Nat) (bytes : List Nat) : List Nat :=
  data.take p ++ bytes ++ data.drop (p + bytes.length)

/-- The loop `*p = static_cast<T>(it->Get<TRapidJson>()); ++p;` over the elements,
`p` being the byte offset of the pointer into `data`. -/
def writeElements (T : ElementType) : List Value → Nat → List Nat → Except Abort (List Nat)
  | [], _, data => .ok data
  | it :: rest, p, data =>
    match castGet T it with
    | .error e => .error e
    | .ok x =>
      if p + T.sizeOf ≤ data.length then
        writeElements T rest (p + T.sizeOf) (storeBytes data p (bytesLE T.sizeOf x))
      else .error .outOfBounds

/-- Function template `updateExtensionWithJsonNumericProperty<T, TRapidJson>`. -/
def updateExtensionWithJsonNumericProperty (T : ElementType) (gltf : Model)
    (classProperty : ClassProperty) (featureTable : FeatureTable)
    (featureTableProperty : FeatureTableProperty) (propertyValue : List Value)
    (typeName : String) : Except Abort PropertyState :=
  let classProperty := { classProperty with type := some typeName }
  let bufferIndex := gltf.buffers.length
  let byteLength : Int := wrapInt64 ((T.sizeOf : Int) * featureTable.count)
  if toUint64 byteLength > vectorMaxSize then .error .lengthError
  else
    let buffer : Buffer := { byteLength := byteLength, data := List.replicate (toUint64 byteLength) 0 }
    let bufferViewIndex := gltf.bufferViews.length
    let bufferView : BufferView :=
      { buffer := wrapInt32 bufferIndex, byteOffset := 0, byteStride := some (T.sizeOf : Int) }
    let featureTableProperty := { featureTableProperty with bufferView := wrapInt32 bufferViewIndex }
    if (propertyValue.length : Int) ≠ featureTable.count then .error .assertFailed
    else
      match writeElements T propertyValue 0 buffer.data with
      | .error e => .error e
      | .ok data =>
        .ok ({ gltf with
                buffers := gltf.buffers ++ [{ buffer with data := data }],
                bufferViews := gltf.bufferViews ++ [bufferView] },
             classProperty, featureTableProperty)

/-- Function `updateExtensionWithJsonBoolProperty`: an empty body. -/
def updateExtensionWithJsonBoolProperty (gltf : Model) (classProperty : ClassProperty)
    (_featureTable : FeatureTable) (featureTableProperty : FeatureTableProperty)
    (_propertyValue : List Value) : Except Abort PropertyState :=
  .ok (gltf, classProperty, featureTableProperty)

/-- Function `updateExtensionWithJsonProperty` on the elements of the JSON array
`propertyValue`. -/
def updateExtensionWithJsonProperty (gltf : Model) (classProperty : ClassProperty)
    (featureTable : FeatureTable) (featureTableProperty : FeatureTableProperty)
    (propertyValue : List Value) : Except Abort PropertyState :=
  match propertyValue with
  | [] =>
    updateExtensionWithJsonStringProperty gltf classProperty featureTable featureTableProperty
      propertyValue
  | firstElement :: _ =>
    if (propertyValue.length : Int) < featureTable.count then
      updateExtensionWithJsonStringProperty gltf classProperty featureTable featureTableProperty
        propertyValue
    else if firstElement.IsArray || firstElement.IsNull || firstElement.IsObject ||
        firstElement.IsString then
      updateExtensionWithJsonStringProperty gltf classProperty featureTable featureTableProperty
        propertyValue
    else
      let compatibleTypes := findCompatibleTypes propertyValue
      if compatibleTypes.isBool then
        updateExtensionWithJsonBoolProperty gltf classProperty featureTable featureTableProperty
          propertyValue
      else if compatibleTypes.isInt8 then
        updateExtensionWithJsonNumericProperty .int8 gltf classProperty featureTable
          featureTableProperty propertyValue "INT8"
      else if compatibleTypes.isUint8 then
        updateExtensionWithJsonNumericProperty .uint8 gltf classProperty featureTable
          featureTableProperty propertyValue "UINT8"
      else if compatibleTypes.isInt16 then
        updateExtensionWithJsonNumericProperty .int16 gltf classProperty featureTable
          featureTableProperty propertyValue "INT16"
      else if compatibleTypes.isUint16 then
        updateExtensionWithJsonNumericProperty .uint16 gltf classProperty featureTable
          featureTableProperty propertyValue "UINT16"
      else if compatibleTypes.isInt32 then
        updateExtensionWithJsonNumericProperty .int32 gltf classProperty featureTable
          featureTableProperty propertyValue "INT32"
      else if compatibleTypes.isUint32 then
        updateExtensionWithJsonNumericProperty .uint32 gltf classProperty featureTable
          featureTableProperty propertyValue "UINT32"
      else if compatibleTypes.isInt64 then
        updateExtensionWithJsonNumericProperty .int64 gltf classProperty featureTable
          featureTableProperty propertyValue "INT64"
      else if compatibleTypes.isUint64 then
        updateExtensionWithJsonNumericProperty .uint64 gltf classProperty featureTable
          featureTableProperty propertyValue "UINT64"
      else if compatibleTypes.isFloat32 then
        updateExtensionWithJsonNumericProperty .float gltf classProperty featureTable
          featureTableProperty propertyValue "FLOAT32"
      else if compatibleTypes.isFloat64 then
        updateExtensionWithJsonNumericProperty .double gltf classProperty featureTable
          featureTableProperty propertyValue "FLOAT64"
      else .ok (gltf, classProperty, featureTableProperty)

/-- Function `updateExtensionWithBinaryProperty`: an empty body. -/
def updateExtensionWithBinaryProperty (gltf : Model) (classProperty : ClassProperty)
    (_featureTable : FeatureTable) (featureTableProperty : FeatureTableProperty)
    (_propertyValue : Value) : Except Abort PropertyState :=
  .ok (gltf, classProperty, featureTableProperty)

/-- Function `updateExtensionWithProperty`. -/
def updateExtensionWithProperty (gltf : Model) (classProperty : ClassProperty)
    (featureTable : FeatureTable) (featureTableProperty : FeatureTableProperty)
    (propertyValue : Value) : Except Abort PropertyState :=
  match propertyValue with
  | .array elements =>
    updateExtensionWithJsonProperty gltf classProperty featureTable featureTableProperty elements
  | _ =>
    updateExtensionWithBinaryProperty gltf classProperty featureTable featureTableProperty
      propertyValue

/-- State of the property loop of `upgradeBatchTableToFeatureMetadata`: the document
and the two objects `classDefinition` and `featureTable` it holds references to. -/
abbrev LoopState := Model × CesiumGltf.Class × FeatureTable

/-- Body of the loop over the members of the batch table JSON (one member `name`,
`value`): both `emplace` calls, the store to `classProperty.name` and the call of
`updateExtensionWithProperty`, whose effects on the two entries are stored back. -/
def propertyLoopBody (state : LoopState) (member : String × Value) : Except Abort LoopState :=
  let gltf := state.1
  let classDefinition := state.2.1
  let featureTable := state.2.2
  let name := member.1
  let classDefinition :=
    { classDefinition with properties := classDefinition.properties.emplace name {} }
  let classProperty : ClassProperty := (classDefinition.properties.find name).getD {}
  let classProperty := { classProperty with name := some name }
  let featureTable := { featureTable with properties := featureTable.properties.emplace name {} }
  let featureTableProperty : FeatureTableProperty := (featureTable.properties.find name).getD {}
  match updateExtensionWithProperty gltf classProperty featureTable featureTableProperty
      member.2 with
  | .error e => .error e
  | .ok (gltf, classProperty, featureTableProperty) =>
    .ok (gltf,
         { classDefinition with properties := classDefinition.properties.assign name classProperty },
         { featureTable with
           properties := featureTable.properties.assign name featureTableProperty })

/-- The loop over the members of the batch table JSON, in document order. -/
def propertyLoop : List (String × Value) → LoopState → Except Abort LoopState
  | [], state => .ok state
  | member :: rest, state =>
    match propertyLoopBody state member with
    | .error e => .error e
    | .ok state => propertyLoop rest state

/-- Body of the loop over the mesh primitives. -/
def primitiveLoopBody (primitive : MeshPrimitive) : MeshPrimitive :=
  match primitive.attributes.find "_BATCHID" with
  | none => primitive
  | some batchID =>
    let attributes := (primitive.attributes.assign "_FEATURE_ID_0" batchID).erase "_BATCHID"
    let extension : MeshPrimitiveEXT_feature_metadata := addExtension primitive.extension {}
    let featureIdAttribute : FeatureIDAttribute :=
      { featureTable := "default", featureIds := { attributeName := some "_FEATURE_ID_0" } }
    { attributes := attributes,
      extension := some
        { extension with featureIdAttributes := extension.featureIdAttributes ++ [featureIdAttribute] } }

/-- The loop over the primitives of one mesh. -/
def meshLoopBody (mesh : Mesh) : Mesh :=
  { mesh with primitives := mesh.primitives.map primitiveLoopBody }

/-- Function `upgradeBatchTableToFeatureMetadata`.  `Parse` stands for
`rapidjson::Document::Parse` on the bytes of the batch table JSON; the logger is not
part of the document and is left out. -/
def upgradeBatchTableToFeatureMetadata (Parse : List Nat → ParseResult) (gltf : Model)
    (featureTableJson : Value) (batchTableJsonData : List Nat)
    (batchTableBinaryData : List Nat) : Except Abort Model :=
  match featureTableJson.FindMember "BATCH_LENGTH" with
  | .error e => .error e
  | .ok none => .ok gltf
  | .ok (some batchLengthValue) =>
    if !batchLengthValue.IsInt64 then .ok gltf
    else
      let batchLength := int64Payload batchLengthValue
      match Parse batchTableJsonData with
      | .parseError _ _ => .ok gltf
      | .root document =>
        let gltf :=
          if batchTableBinaryData.isEmpty then gltf
          else
            { gltf with
              buffers := gltf.buffers ++
                [{ byteLength := (batchTableBinaryData.length : Int),
                   data := batchTableBinaryData }] }
        let modelExtension : ModelEXT_feature_metadata := addExtension gltf.extension {}
        let schema : Schema := {}
        let schema := { schema with classes := schema.classes.emplace "default" {} }
        let classDefinition : CesiumGltf.Class := (schema.classes.find "default").getD {}
        let featureTables := modelExtension.featureTables.emplace "default" {}
        let featureTable : FeatureTable := (featureTables.find "default").getD {}
        let featureTable :=
          { featureTable with count := batchLength, classProperty := some "default" }
        match document with
        | .object members =>
          match propertyLoop members (gltf, classDefinition, featureTable) with
          | .error e => .error e
          | .ok (gltf, classDefinition, featureTable) =>
            .ok { gltf with
                  extension := some
                    { schema := some
                        { schema with classes := schema.classes.assign "default" classDefinition },
                      featureTables := featureTables.assign "default" featureTable },
                  meshes := gltf.meshes.map meshLoopBody }
        | _ => .error .rapidjsonAssert

end Cesium3DTiles

/-! ## Auxiliary definitions for the statements -/

namespace Cesium3DTiles

open rapidjson CesiumGltf

/-- Concatenation of the little-endian encodings, `n` bytes each, of the patterns. -/
def packBytes (n : Nat) : List Nat → List Nat
  | [] => []
  | x :: xs => bytesLE n x ++ packBytes n xs

/-- The bytes of the batch table text of Scenario A, a `height` column `[1,2,300]`. -/
def scenarioAText : List Nat :=
  [123, 34, 104, 101, 105, 103, 104, 116, 34, 58, 91, 49, 44, 50, 44, 51, 48, 48, 93, 125]

/-- The bytes of the malformed batch table text of Scenario C. -/
def scenarioCText : List Nat := [123, 34, 97, 34, 58, 91, 49, 44, 50, 44, 125]

/-- Outcomes of `Document::Parse` on the texts used in the examples: the text of
Scenario A is the object with the member `height`, the text of Scenario C is rejected
(`kParseErrorValueInvalid` at byte offset 10), the two bytes of an empty object are the
empty object. -/
def exampleParse (text : List Nat) : ParseResult :=
  if text = scenarioAText then
    .root (.object [("height", .array [.int 1, .int 2, .int 300])])
  else if text = scenarioCText then .parseError 3 10
  else if text = [123, 125] then .root (.object [])
  else .parseError 1 0

/-- The document of Scenario D: one primitive with `_BATCHID` on accessor 4, one
primitive without it. -/
def scenarioD : Model :=
  { meshes :=
      [{ primitives :=
          [{ attributes := [("POSITION", 0), ("_BATCHID", 4)] },
           { attributes := [("POSITION", 1)] }] }] }

/-- The document of Scenario D after the upgrade with `BATCH_LENGTH` 3 and an empty
batch table. -/
def scenarioDUpgraded : Model :=
  { meshes :=
      [{ primitives :=
          [{ attributes := [("POSITION", 0), ("_FEATURE_ID_0", 4)],
             extension := some
               { featureIdAttributes :=
                   [{ featureTable := "default",
                      featureIds := { attributeName := some "_FEATURE_ID_0" } }] } },
           { attributes := [("POSITION", 1)] }] }],
    extension := some
      { schema := some { classes := [("default", {})] },
        featureTables := [("default", { classProperty := some "default", count := 3 })] } }

end Cesium3DTiles

namespace Cesium3DTiles

open rapidjson CesiumGltf

/-- A representation the selection in `updateExtensionWithJsonProperty` can settle on:
the boolean one, or a numeric one with its element type and type-name string. -/
inductive Representation where
  | bool
  | numeric (T : ElementType) (typeName : String)
  deriving DecidableEq, Repr

/-- The eleven compatibility flags in the fixed order of the selection policy, each
with the representation it stands for. -/
def orderedFlags (c : CompatibleTypes) : List (Bool × Representation) :=
  [(c.isBool, .bool),
   (c.isInt8, .numeric .int8 "INT8"),
   (c.isUint8, .numeric .uint8 "UINT8"),
   (c.isInt16, .numeric .int16 "INT16"),
   (c.isUint16, .numeric .uint16 "UINT16"),
   (c.isInt32, .numeric .int32 "INT32"),
   (c.isUint32, .numeric .uint32 "UINT32"),
   (c.isInt64, .numeric .int64 "INT64"),
   (c.isUint64, .numeric .uint64 "UINT64"),
   (c.isFloat32, .numeric .float "FLOAT32"),
   (c.isFloat64, .numeric .double "FLOAT64")]

/-- The selection policy in the words of the specification: the first flag that is
true in the fixed order wins; `none` when no flag is true. -/
def selectionPolicy (c : CompatibleTypes) : Option Representation :=
  ((orderedFlags c).find? (fun f => f.1)).map (fun f => f.2)

/-- The array reaches the type selection of `updateExtensionWithJsonProperty`: it is
not empty, not shorter than the feature count, and its first element is not an array,
null, an object or a string. -/
def reachesTypeSelection (count : Int) : List Value → Bool
  | [] => false
  | firstElement :: rest =>
    !decide ((((firstElement :: rest).length : Nat) : Int) < count) &&
      !(firstElement.IsArray || firstElement.IsNull || firstElement.IsObject ||
        firstElement.IsString)

/-- The property value is dispatched to `updateExtensionWithJsonNumericProperty`: it
is an array that reaches the type selection and the policy settles on a numeric
representation. -/
def takesNumericPath (count : Int) : Value → Bool
  | .array elements =>
    reachesTypeSelection count elements &&
      (match selectionPolicy (findCompatibleTypes elements) with
       | some (.numeric _ _) => true
       | _ => false)
  | _ => false

/-- Number of members dispatched to the numeric packer for the feature count `count`. -/
def numericPathCount (count : Int) (members : List (String × Value)) : Nat :=
  (members.filter (fun m => takesNumericPath count m.2)).length

/-- The shapes of a property value listed as unsupported: not an array, or an array
that is empty, shorter than the feature count, starts with an array, null, object or
string, or holds booleans only. -/
def UnsupportedShape (count : Int) : Value → Prop
  | .array elements =>
    elements = [] ∨ ((elements.length : Nat) : Int) < count ∨
      (∃ firstElement rest, elements = firstElement :: rest ∧
        (firstElement.IsArray = true ∨ firstElement.IsNull = true ∨
          firstElement.IsObject = true ∨ firstElement.IsString = true)) ∨
      (∀ e ∈ elements, e.IsBool = true)
  | _ => True

/-- A document that holds one buffer and one buffer view before the upgrade. -/
def scenarioADocument : Model :=
  { buffers := [{ byteLength := 1, data := [7] }],
    bufferViews := [{ buffer := 0, byteLength := 1 }] }

/-- The document `scenarioADocument` after the upgrade with the batch table of
Scenario A, `BATCH_LENGTH` 3 and the binary payload `[9, 8]`. -/
def scenarioAUpgraded : Model :=
  { buffers :=
      [{ byteLength := 1, data := [7] },
       { byteLength := 2, data := [9, 8] },
       { byteLength := 12, data := [0, 0, 128, 63, 0, 0, 0, 64, 0, 0, 150, 67] }],
    bufferViews :=
      [{ buffer := 0, byteLength := 1 },
       { buffer := 2, byteOffset := 0, byteStride := some 4 }],
    extension := some
      { schema := some
          { classes :=
              [("default",
                { properties := [("height", { name := some "height", type := some "FLOAT32" })] })] },
        featureTables :=
          [("default",
            { classProperty := some "default", count := 3,
              properties := [("height", { bufferView := 1 })] })] } }

/-- The empty document after the upgrade with `BATCH_LENGTH` -1 and an empty batch
table. -/
def negativeCountUpgraded : Model :=
  { extension := some
      { schema := some { classes := [("default", {})] },
        featureTables := [("default", { classProperty := some "default", count := -1 })] } }

end Cesium3DTiles

/-! ## `CreditSystem.cpp` -/

namespace Cesium3DTilesSelection

/-- Struct `Credit`: a handle, the index `id` of the credit in `_credits`. -/
structure Credit where
  id : Nat
  deriving DecidableEq, Repr

/-- Element of `_credits`: the html text and the last frame the credit was shown in. -/
structure HtmlAndLastFrameNumber where
  html : String
  lastFrameNumber : Int
  deriving DecidableEq, Repr

/-- The data members of class `CreditSystem`. -/
structure CreditSystem where
  _credits : List HtmlAndLastFrameNumber := []
  _creditsToShowThisFrame : List Credit := []
  _creditsToNoLongerShowThisFrame : List Credit := []
  _currentFrameNumber : Int := 0
  deriving DecidableEq, Repr

/-- The search loop of `createCredit` over the entries from index `id` on: the first
index whose html equals `html`. -/
def findCreditFrom (html : String) : List HtmlAndLastFrameNumber → Nat → Option Nat
  | [], _ => none
  | entry :: rest, id => if entry.html = html then some id else findCreditFrom html rest (id + 1)

/-- Method `CreditSystem::createCredit`: the handle returned and the system after the
call. -/
def CreditSystem.createCredit (self : CreditSystem) (html : String) : Credit × CreditSystem :=
  match findCreditFrom html self._credits 0 with
  | some id => ({ id := id }, self)
  | none =>
    let credits := self._credits ++ [{ html := html, lastFrameNumber := -1 }]
    ({ id := credits.length - 1 }, { self with _credits := credits })

/-- Method `CreditSystem::getHtml`.  The constant `INVALID_CREDIT_MESSAGE` is declared
in the header, which is not among the sources; it is a parameter. -/
def CreditSystem.getHtml (INVALID_CREDIT_MESSAGE : String) (self : CreditSystem)
    (credit : Credit) : String :=
  match self._credits[credit.id]? with
  | some entry => entry.html
  | none => INVALID_CREDIT_MESSAGE

/-- Method `CreditSystem::addCreditToFrame`.  The access `_credits[credit.id]` is
unchecked: `none` stands for an access outside the vector.  The header, which is not
among the sources, declares the frame numbers; they are taken to be `int32_t`, and
`_currentFrameNumber - 1` is taken to wrap. -/
def CreditSystem.addCreditToFrame (self : CreditSystem) (credit : Credit) :
    Option CreditSystem :=
  match self._credits[credit.id]? with
  | none => none
  | some entry =>
    if entry.lastFrameNumber = self._currentFrameNumber then some self
    else
      some
        { _credits :=
            self._credits.set credit.id
              { entry with lastFrameNumber := self._currentFrameNumber },
          _creditsToShowThisFrame := self._creditsToShowThisFrame ++ [credit],
          _creditsToNoLongerShowThisFrame :=
            if entry.lastFrameNumber = wrapInt32 (self._currentFrameNumber - 1) then
              self._creditsToNoLongerShowThisFrame.filter (fun c => !decide (c = credit))
            else self._creditsToNoLongerShowThisFrame,
          _currentFrameNumber := self._currentFrameNumber }

/-- Method `CreditSystem::startNextFrame`: the two lists are swapped, the list to show
is cleared, and the `int32_t` frame number is incremented (wrapping). -/
def CreditSystem.startNextFrame (self : CreditSystem) : CreditSystem :=
  { _credits := self._credits,
    _creditsToShowThisFrame := [],
    _creditsToNoLongerShowThisFrame := self._creditsToShowThisFrame,
    _currentFrameNumber := wrapInt32 (self._currentFrameNumber + 1) }

/-- The states reachable from the initial state (no credits, empty lists, frame number
0), each with the handles `createCredit` has returned on the way: a step is a call of
`createCredit`, of `addCreditToFrame` with one of these handles, or of
`startNextFrame`. -/
inductive Reachable : CreditSystem → List Credit → Prop where
  | start : Reachable {} []
  | create (self : CreditSystem) (handles : List Credit) (html : String) :
      Reachable self handles →
      Reachable (self.createCredit html).2 ((self.createCredit html).1 :: handles)
  | add (self next : CreditSystem) (handles : List Credit) (credit : Credit) :
      Reachable self handles → credit ∈ handles →
      self.addCreditToFrame credit = some next → Reachable next handles
  | nextFrame (self : CreditSystem) (handles : List Credit) :
      Reachable self handles → Reachable self.startNextFrame handles

/-- The invariant carried along the reachable states: every handle handed out is in
range, the frame number is an `int32_t`, every credit to show was last shown in the
current frame, every credit to no longer show was last shown in the frame before, and
the list to show has no duplicate. -/
def FrameInvariant (self : CreditSystem) (handles : List Credit) : Prop :=
  (∀ c ∈ handles, c.id < self._credits.length) ∧
  (-2 ^ 31 ≤ self._currentFrameNumber ∧ self._currentFrameNumber < 2 ^ 31) ∧
  (∀ c ∈ self._creditsToShowThisFrame, ∃ entry, self._credits[c.id]? = some entry ∧
    entry.lastFrameNumber = self._currentFrameNumber) ∧
  (∀ c ∈ self._creditsToNoLongerShowThisFrame, ∃ entry, self._credits[c.id]? = some entry ∧
    entry.lastFrameNumber = wrapInt32 (self._currentFrameNumber - 1)) ∧
  self._creditsToShowThisFrame.Nodup

/-- A reachable state with both lists non-empty: credit `a` was shown in frame 0,
credit `b` is shown in frame 1. -/
def frameExample : CreditSystem :=
  { _credits := [{ html := "a", lastFrameNumber := 0 }, { html := "b", lastFrameNumber := 1 }],
    _creditsToShowThisFrame := [{ id := 1 }],
    _creditsToNoLongerShowThisFrame := [{ id := 0 }],
    _currentFrameNumber := 1 }

end Cesium3DTilesSelection

/-! ## Lemmas -/

namespace CesiumGltf.StringMap

variable {β : Type}

theorem find_nil (key : String) : find ([] : StringMap β) key = none := rfl

theorem find_cons (e : String × β) (m : StringMap β) (key : String) :
    find (e :: m) key = if e.1 = key then some e.2 else find m key := by
  unfold find
  by_cases h : e.1 = key <;> simp [List.find?_cons, h]

theorem find_append_singleton (m : StringMap β) (key k : String) (v : β) :
    find (m ++ [(k, v)]) key =
      match find m key with
      | some x => some x
      | none => if k = key then some v else none := by
  induction m with
  | nil => simp [find_cons, find_nil]
  | cons e rest ih =>
    simp only [List.cons_append, find_cons]
    by_cases h : e.1 = key
    · simp [h]
    · simp [h, ih]

theorem find_map_replace (m : StringMap β) (key k : String) (v : β) :
    find (m.map (fun e => if e.1 = k then (k, v) else e)) key =
      if k = key then (find m key).map (fun _ => v) else find m key := by
  induction m with
  | nil => simp [find_nil]
  | cons e rest ih =>
    simp only [List.map_cons, find_cons, ih]
    by_cases hk : e.1 = k
    · by_cases hkey : k = key
      · simp [hk, hkey]
      · have : ¬ e.1 = key := fun h => hkey (hk ▸ h)
        simp [hk, hkey]
    · by_cases hkey : k = key
      · have : ¬ e.1 = key := fun h => hk (h.trans hkey.symm)
        simp [hk, hkey, this]
      · simp [hk, hkey]

theorem find_assign_self (m : StringMap β) (key : String) (v : β) :
    find (assign m key v) key = some v := by
  unfold assign
  cases h : find m key with
  | none => simp [find_append_singleton, h]
  | some x => simp [find_map_replace, h]

theorem find_assign_ne (m : StringMap β) (key k : String) (v : β) (hne : k ≠ key) :
    find (assign m k v) key = find m key := by
  unfold assign
  split_ifs with h
  · simp [find_map_replace, hne]
  · rw [find_append_singleton]
    cases find m key <;> simp [hne]

theorem find_erase_self (m : StringMap β) (key : String) : find (erase m key) key = none := by
  induction m with
  | nil => rfl
  | cons e rest ih =>
    unfold erase at ih ⊢
    by_cases h : e.1 = key
    · simp only [List.filter_cons, h, decide_True, Bool.not_true]
      exact ih
    · simp only [List.filter_cons, h, decide_False, Bool.not_false, if_true, find_cons, if_false]
      exact ih

theorem find_erase_ne (m : StringMap β) (key k : String) (hne : k ≠ key) :
    find (erase m k) key = find m key := by
  induction m with
  | nil => rfl
  | cons e rest ih =>
    unfold erase at ih ⊢
    by_cases h : e.1 = k
    · have h3 : ¬ e.1 = key := fun h2 => hne (h.symm.trans h2)
      simp only [List.filter_cons, h, decide_True, Bool.not_true, find_cons]
      rw [← h, if_neg h3]
      simpa [h] using ih
    · simp only [List.filter_cons, h, decide_False, Bool.not_false, if_true, find_cons]
      rw [ih]

end CesiumGltf.StringMap

namespace Cesium3DTiles

open rapidjson CesiumGltf

theorem step_isBool_false (r : CompatibleTypes) (it : Value) (h : r.isBool = false) :
    (findCompatibleTypesStep r it).isBool = false := by
  unfold findCompatibleTypesStep
  split_ifs <;> simp [h]

theorem foldl_isBool_false (l : List Value) (r : CompatibleTypes) (h : r.isBool = false) :
    (l.foldl findCompatibleTypesStep r).isBool = false := by
  induction l generalizing r with
  | nil => simpa using h
  | cons it rest ih => exact ih _ (step_isBool_false r it h)

theorem step_int8 (r : CompatibleTypes) (i : Int) (h1 : -128 ≤ i) (h2 : i ≤ 127) :
    (findCompatibleTypesStep r (.int i)).isInt8 = r.isInt8 ∧
    (findCompatibleTypesStep r (.int i)).isBool = false := by
  have h64 : Value.IsInt64 (.int i) = true := by
    simp only [Value.IsInt64, decide_eq_true_eq]; omega
  simp [findCompatibleTypesStep, Value.IsBool, h64, isInRange, int64Payload, h1, h2]

theorem foldl_int8 (vals : List Int) (r : CompatibleTypes)
    (h : ∀ v ∈ vals, -128 ≤ v ∧ v ≤ 127) :
    ((vals.map Value.int).foldl findCompatibleTypesStep r).isInt8 = r.isInt8 := by
  induction vals generalizing r with
  | nil => rfl
  | cons v rest ih =>
    have hv := h v (List.mem_cons_self _ _)
    simp only [List.map_cons, List.foldl_cons]
    rw [ih _ (fun w hw => h w (List.mem_cons_of_mem _ hw))]
    exact (step_int8 r v hv.1 hv.2).1

theorem bytesLE_length (n x : Nat) : (bytesLE n x).length = n := by
  simp [bytesLE]

theorem packBytes_length (n : Nat) (xs : List Nat) : (packBytes n xs).length = n * xs.length := by
  induction xs with
  | nil => simp [packBytes]
  | cons x xs ih => simp [packBytes, bytesLE_length, ih, Nat.mul_succ]; omega

theorem storeBytes_append (done rem bytes : List Nat) :
    storeBytes (done ++ rem) done.length bytes = done ++ bytes ++ rem.drop bytes.length := by
  simp [storeBytes, List.drop_append]

theorem writeElements_append (T : ElementType) (elems : List Value) (xs : List Nat)
    (h : List.Forall₂ (fun it x => castGet T it = .ok x) elems xs) (done rem : List Nat)
    (hlen : T.sizeOf * elems.length ≤ rem.length) :
    writeElements T elems done.length (done ++ rem) =
      .ok (done ++ packBytes T.sizeOf xs ++ rem.drop (T.sizeOf * elems.length)) := by
  induction h generalizing done rem with
  | nil => simp [writeElements, packBytes]
  | @cons it x rest xs hx _ ih =>
    simp only [List.length_cons, Nat.mul_succ] at hlen
    have hb : done.length + T.sizeOf ≤ (done ++ rem).length := by
      simp only [List.length_append]; omega
    have hstore := storeBytes_append done rem (bytesLE T.sizeOf x)
    rw [bytesLE_length] at hstore
    have hlen2 : (done ++ bytesLE T.sizeOf x).length = done.length + T.sizeOf := by
      simp [bytesLE_length]
    have hrem : T.sizeOf * rest.length ≤ (rem.drop T.sizeOf).length := by
      simp only [List.length_drop]; omega
    have := ih (done ++ bytesLE T.sizeOf x) (rem.drop T.sizeOf) hrem
    rw [hlen2] at this
    simp only [List.drop_drop, List.append_assoc] at this
    simp only [writeElements, hx, if_pos hb, hstore, packBytes, List.length_cons,
      Nat.mul_succ, List.append_assoc, this]
    rw [Nat.add_comm T.sizeOf]

theorem writeElements_zeros (T : ElementType) (elems : List Value) (xs : List Nat)
    (h : List.Forall₂ (fun it x => castGet T it = .ok x) elems xs) :
    writeElements T elems 0 (List.replicate (T.sizeOf * elems.length) 0) =
      .ok (packBytes T.sizeOf xs) := by
  have := writeElements_append T elems xs h [] (List.replicate (T.sizeOf * elems.length) 0)
    (by simp)
  simpa using this



theorem storeBytes_length (data bytes : List Nat) (p : Nat) (h : p + bytes.length ≤ data.length) :
    (storeBytes data p bytes).length = data.length := by
  simp only [storeBytes, List.length_append, List.length_take, List.length_drop]
  omega

theorem writeElements_inv (T : ElementType) (elems : List Value) (p : Nat) (data out : List Nat)
    (h : writeElements T elems p data = .ok out) :
    (∃ xs, List.Forall₂ (fun it x => castGet T it = .ok x) elems xs) ∧
    (elems = [] ∨ p + T.sizeOf * elems.length ≤ data.length) := by
  induction elems generalizing p data with
  | nil => exact ⟨⟨[], List.Forall₂.nil⟩, Or.inl rfl⟩
  | cons it rest ih =>
    simp only [writeElements] at h
    cases hx : castGet T it with
    | error e => simp [hx] at h
    | ok x =>
      simp only [hx] at h
      by_cases hb : p + T.sizeOf ≤ data.length
      · simp only [if_pos hb] at h
        obtain ⟨⟨xs, hxs⟩, hbound⟩ := ih _ _ h
        refine ⟨⟨x :: xs, List.Forall₂.cons hx hxs⟩, Or.inr ?_⟩
        rw [storeBytes_length _ _ _ (by rw [bytesLE_length]; exact hb)] at hbound
        rcases hbound with hnil | hle
        · simp [hnil]; omega
        · simp only [List.length_cons, Nat.mul_succ]; omega
      · simp [if_neg hb] at h

theorem wrapInt64_of_small (x : Int) (h0 : 0 ≤ x) (h1 : x < 2 ^ 63) : wrapInt64 x = x := by
  unfold wrapInt64; omega

theorem toUint64_of_nat (n : Nat) (h : n < 2 ^ 64) : toUint64 (n : Int) = n := by
  unfold toUint64; omega

theorem wrapInt32_of_small (n : Nat) (h : n < 2 ^ 31) : wrapInt32 (n : Int) = n := by
  unfold wrapInt32; omega

theorem numeric_ok (T : ElementType) (gltf : Model) (classProperty : ClassProperty)
    (featureTable : FeatureTable) (featureTableProperty : FeatureTableProperty)
    (propertyValue : List Value) (typeName : String) (xs : List Nat)
    (hcount : featureTable.count = (propertyValue.length : Int))
    (hsize : T.sizeOf * propertyValue.length ≤ vectorMaxSize)
    (hget : List.Forall₂ (fun it x => castGet T it = .ok x) propertyValue xs) :
    updateExtensionWithJsonNumericProperty T gltf classProperty featureTable
        featureTableProperty propertyValue typeName =
      .ok ({ gltf with
              buffers := gltf.buffers ++
                [{ byteLength := ((T.sizeOf * propertyValue.length : Nat) : Int),
                   data := packBytes T.sizeOf xs }],
              bufferViews := gltf.bufferViews ++
                [{ buffer := wrapInt32 gltf.buffers.length, byteOffset := 0,
                   byteStride := some (T.sizeOf : Int) }] },
           { classProperty with type := some typeName },
           { featureTableProperty with bufferView := wrapInt32 gltf.bufferViews.length }) := by
  have hmax : vectorMaxSize = 2 ^ 63 - 1 := rfl
  have hw : wrapInt64 ((T.sizeOf : Int) * (propertyValue.length : Int)) =
      ((T.sizeOf * propertyValue.length : Nat) : Int) := by
    rw [← Nat.cast_mul]; apply wrapInt64_of_small <;> omega
  have hu : toUint64 (((T.sizeOf * propertyValue.length : Nat) : Int)) =
      T.sizeOf * propertyValue.length := toUint64_of_nat _ (by omega)
  unfold updateExtensionWithJsonNumericProperty
  simp only [hcount, hw, hu, ne_eq, not_true_eq_false, if_false,
    writeElements_zeros T propertyValue xs hget]
  rw [if_neg (by omega)]

theorem numeric_inv (T : ElementType) (gltf : Model) (classProperty : ClassProperty)
    (featureTable : FeatureTable) (featureTableProperty : FeatureTableProperty)
    (propertyValue : List Value) (typeName : String) (st : PropertyState)
    (h : updateExtensionWithJsonNumericProperty T gltf classProperty featureTable
        featureTableProperty propertyValue typeName = .ok st) :
    featureTable.count = (propertyValue.length : Int) ∧
    T.sizeOf * propertyValue.length ≤ vectorMaxSize ∧
    ∃ xs, List.Forall₂ (fun it x => castGet T it = .ok x) propertyValue xs := by
  have hmax : vectorMaxSize = 2 ^ 63 - 1 := rfl
  unfold updateExtensionWithJsonNumericProperty at h
  simp only at h
  split_ifs at h with h1 h2
  cases hw : writeElements T propertyValue 0
      (List.replicate (toUint64 (wrapInt64 ((T.sizeOf : Int) * featureTable.count))) 0) with
  | error e => simp [hw] at h
  | ok out =>
    obtain ⟨hxs, hbound⟩ := writeElements_inv _ _ _ _ _ hw
    have hc : featureTable.count = (propertyValue.length : Int) := by
      by_contra hne; exact h2 (fun heq => hne heq.symm)
    refine ⟨hc, ?_, hxs⟩
    have hb : T.sizeOf * propertyValue.length ≤
        toUint64 (wrapInt64 ((T.sizeOf : Int) * featureTable.count)) := by
      rcases hbound with hnil | hle
      · simp [hnil]
      · simpa using hle
    omega

theorem primitiveLoopBody_renames (primitive : MeshPrimitive) (a : Int)
    (hid : primitive.attributes.find "_BATCHID" = some a) (hext : primitive.extension = none) :
    (primitiveLoopBody primitive).attributes.find "_FEATURE_ID_0" = some a ∧
    (primitiveLoopBody primitive).attributes.find "_BATCHID" = none ∧
    (primitiveLoopBody primitive).extension =
      some { featureIdAttributes :=
        [{ featureTable := "default", featureIds := { attributeName := some "_FEATURE_ID_0" } }] } := by
  simp only [primitiveLoopBody, hid, hext, addExtension]
  refine ⟨?_, StringMap.find_erase_self _ _, rfl⟩
  rw [StringMap.find_erase_ne _ _ _ (by decide), StringMap.find_assign_self]

theorem primitiveLoopBody_untouched (primitive : MeshPrimitive)
    (hid : primitive.attributes.find "_BATCHID" = none) :
    primitiveLoopBody primitive = primitive := by
  simp only [primitiveLoopBody, hid]

theorem numeric_frame (T : ElementType) (gltf : Model) (classProperty : ClassProperty)
    (featureTable : FeatureTable) (featureTableProperty : FeatureTableProperty)
    (propertyValue : List Value) (typeName : String) (st : PropertyState)
    (h : updateExtensionWithJsonNumericProperty T gltf classProperty featureTable
        featureTableProperty propertyValue typeName = .ok st) :
    st.1.meshes = gltf.meshes ∧ st.1.extension = gltf.extension := by
  unfold updateExtensionWithJsonNumericProperty at h
  simp only at h
  split_ifs at h
  split at h
  · simp at h
  · simp only [Except.ok.injEq] at h
    subst h
    exact ⟨rfl, rfl⟩

theorem ite_cases {α : Type} (P : α → Prop) (c : Prop) [Decidable c] (a b : α)
    (ha : P a) (hb : P b) : P (if c then a else b) := by
  split <;> assumption

theorem jsonProperty_cases (P : Except Abort PropertyState → Prop) (gltf : Model)
    (classProperty : ClassProperty) (featureTable : FeatureTable)
    (featureTableProperty : FeatureTableProperty) (propertyValue : List Value)
    (hstub : P (.ok (gltf, classProperty, featureTableProperty)))
    (hnum : ∀ T typeName, P (updateExtensionWithJsonNumericProperty T gltf classProperty
      featureTable featureTableProperty propertyValue typeName)) :
    P (updateExtensionWithJsonProperty gltf classProperty featureTable featureTableProperty
        propertyValue) := by
  cases propertyValue with
  | nil => exact hstub
  | cons firstElement rest =>
    unfold updateExtensionWithJsonProperty
    dsimp only
    repeat (first | exact hstub | exact hnum _ _ | apply ite_cases)

theorem jsonProperty_frame (gltf : Model) (classProperty : ClassProperty)
    (featureTable : FeatureTable) (featureTableProperty : FeatureTableProperty)
    (propertyValue : List Value) (st : PropertyState)
    (h : updateExtensionWithJsonProperty gltf classProperty featureTable featureTableProperty
        propertyValue = .ok st) :
    st.1.meshes = gltf.meshes ∧ st.1.extension = gltf.extension := by
  revert h
  apply jsonProperty_cases (fun r => r = .ok st → st.1.meshes = gltf.meshes ∧
    st.1.extension = gltf.extension)
  · intro h
    cases h
    exact ⟨rfl, rfl⟩
  · intro T typeName h
    exact numeric_frame _ _ _ _ _ _ _ _ h

theorem property_frame (gltf : Model) (classProperty : ClassProperty)
    (featureTable : FeatureTable) (featureTableProperty : FeatureTableProperty)
    (propertyValue : Value) (st : PropertyState)
    (h : updateExtensionWithProperty gltf classProperty featureTable featureTableProperty
        propertyValue = .ok st) :
    st.1.meshes = gltf.meshes ∧ st.1.extension = gltf.extension := by
  unfold updateExtensionWithProperty at h
  split at h
  · exact jsonProperty_frame _ _ _ _ _ _ h
  · simp only [updateExtensionWithBinaryProperty, Except.ok.injEq] at h
    subst h; exact ⟨rfl, rfl⟩

theorem propertyLoopBody_frame (state state2 : LoopState) (member : String × Value)
    (h : propertyLoopBody state member = .ok state2) :
    state2.1.meshes = state.1.meshes ∧ state2.1.extension = state.1.extension := by
  unfold propertyLoopBody at h
  simp only at h
  split at h
  · simp at h
  · rename_i g cp ftp heq
    simp only [Except.ok.injEq] at h
    subst h
    exact property_frame _ _ _ _ _ _ heq

theorem propertyLoop_frame (members : List (String × Value)) (state state2 : LoopState)
    (h : propertyLoop members state = .ok state2) :
    state2.1.meshes = state.1.meshes ∧ state2.1.extension = state.1.extension := by
  induction members generalizing state with
  | nil =>
    simp only [propertyLoop, Except.ok.injEq] at h
    subst h; exact ⟨rfl, rfl⟩
  | cons member rest ih =>
    simp only [propertyLoop] at h
    split at h
    · simp at h
    · rename_i s heq
      have h1 := propertyLoopBody_frame _ _ _ heq
      have h2 := ih _ h
      exact ⟨h2.1.trans h1.1, h2.2.trans h1.2⟩

theorem upgrade_meshes_of_gates (Parse : List Nat → ParseResult) (gltf gltf2 : Model)
    (members : List (String × Value)) (batchLengthValue document : Value)
    (batchTableJsonData batchTableBinaryData : List Nat)
    (hfind : Value.findMember members "BATCH_LENGTH" = some batchLengthValue)
    (hint : batchLengthValue.IsInt64 = true)
    (hparse : Parse batchTableJsonData = .root document)
    (h : upgradeBatchTableToFeatureMetadata Parse gltf (.object members) batchTableJsonData
      batchTableBinaryData = .ok gltf2) :
    gltf2.meshes = gltf.meshes.map meshLoopBody := by
  simp only [upgradeBatchTableToFeatureMetadata, Value.FindMember, hfind, hint, hparse,
    Bool.not_true, Bool.false_eq_true, if_false] at h
  split at h
  · split at h
    · simp at h
    · rename_i g cd ft heq
      have hframe := (propertyLoop_frame _ _ _ heq).1
      simp only [Except.ok.injEq] at h
      subst h
      simp only at hframe ⊢
      rw [hframe]
      split <;> rfl
  · simp at h

theorem upgrade_meshes_cases (Parse : List Nat → ParseResult) (gltf gltf2 : Model)
    (featureTableJson : Value) (batchTableJsonData batchTableBinaryData : List Nat)
    (h : upgradeBatchTableToFeatureMetadata Parse gltf featureTableJson batchTableJsonData
      batchTableBinaryData = .ok gltf2) :
    gltf2.meshes = gltf.meshes ∨ gltf2.meshes = gltf.meshes.map meshLoopBody := by
  cases featureTableJson with
  | object members =>
    cases hfind : Value.findMember members "BATCH_LENGTH" with
    | none =>
      simp only [upgradeBatchTableToFeatureMetadata, Value.FindMember, hfind,
        Except.ok.injEq] at h
      exact Or.inl (by rw [h])
    | some v =>
      cases hint : v.IsInt64 with
      | false =>
        simp only [upgradeBatchTableToFeatureMetadata, Value.FindMember, hfind, hint,
          Bool.not_false, if_true, Except.ok.injEq] at h
        exact Or.inl (by rw [h])
      | true =>
        cases hparse : Parse batchTableJsonData with
        | parseError code offset =>
          simp only [upgradeBatchTableToFeatureMetadata, Value.FindMember, hfind, hint, hparse,
            Bool.not_true, Bool.false_eq_true, if_false, Except.ok.injEq] at h
          exact Or.inl (by rw [h])
        | root document =>
          exact Or.inr (upgrade_meshes_of_gates Parse gltf gltf2 members v document _ _ hfind
            hint hparse h)
  | _ => simp [upgradeBatchTableToFeatureMetadata, Value.FindMember] at h

theorem castGet_int8_small (v : Int) (h1 : -128 ≤ v) (h2 : v ≤ 127) :
    castGet .int8 (.int v) = .ok (truncateTo 1 v) := by
  have hint : Value.IsInt (.int v) = true := by
    simp only [Value.IsInt, decide_eq_true_eq]; omega
  simp [castGet, Value.GetInt, hint, Except.map]

theorem forall2_int8 (vals : List Int) (h : ∀ v ∈ vals, -128 ≤ v ∧ v ≤ 127) :
    List.Forall₂ (fun it x => castGet .int8 it = .ok x) (vals.map Value.int)
      (vals.map (truncateTo 1)) := by
  induction vals with
  | nil => exact List.Forall₂.nil
  | cons v rest ih =>
    have hv := h v (List.mem_cons_self _ _)
    exact List.Forall₂.cons (castGet_int8_small v hv.1 hv.2)
      (ih (fun w hw => h w (List.mem_cons_of_mem _ hw)))


theorem selection_chain {α : Type} (c : CompatibleTypes) (onBool : α)
    (onNumeric : ElementType → String → α) (onNone : α) :
    (if c.isBool then onBool
      else if c.isInt8 then onNumeric .int8 "INT8"
      else if c.isUint8 then onNumeric .uint8 "UINT8"
      else if c.isInt16 then onNumeric .int16 "INT16"
      else if c.isUint16 then onNumeric .uint16 "UINT16"
      else if c.isInt32 then onNumeric .int32 "INT32"
      else if c.isUint32 then onNumeric .uint32 "UINT32"
      else if c.isInt64 then onNumeric .int64 "INT64"
      else if c.isUint64 then onNumeric .uint64 "UINT64"
      else if c.isFloat32 then onNumeric .float "FLOAT32"
      else if c.isFloat64 then onNumeric .double "FLOAT64"
      else onNone) =
    match selectionPolicy c with
    | some .bool => onBool
    | some (.numeric T typeName) => onNumeric T typeName
    | none => onNone := by
  obtain ⟨i8, u8, i16, u16, i32, u32, i64, u64, f32, f64, b⟩ := c
  cases b; swap; rfl
  cases i8; swap; rfl
  cases u8; swap; rfl
  cases i16; swap; rfl
  cases u16; swap; rfl
  cases i32; swap; rfl
  cases u32; swap; rfl
  cases i64; swap; rfl
  cases u64; swap; rfl
  cases f32; swap; rfl
  cases f64; swap; rfl
  rfl

theorem jsonProperty_not_reaching (gltf : Model) (classProperty : ClassProperty)
    (featureTable : FeatureTable) (featureTableProperty : FeatureTableProperty)
    (propertyValue : List Value)
    (h : reachesTypeSelection featureTable.count propertyValue = false) :
    updateExtensionWithJsonProperty gltf classProperty featureTable featureTableProperty
      propertyValue = .ok (gltf, classProperty, featureTableProperty) := by
  cases propertyValue with
  | nil => rfl
  | cons firstElement rest =>
    unfold updateExtensionWithJsonProperty
    simp only [reachesTypeSelection, Bool.and_eq_false_imp, Bool.not_eq_true',
      decide_eq_false_iff_not, not_lt, Bool.not_eq_false'] at h
    by_cases h1 : (((firstElement :: rest).length : Nat) : Int) < featureTable.count
    · simp only [h1, if_true, updateExtensionWithJsonStringProperty]
    · have h2 := h (not_lt.mp h1)
      simp only [h1, if_false, h2, if_true, updateExtensionWithJsonStringProperty]

theorem jsonProperty_selection (gltf : Model) (classProperty : ClassProperty)
    (featureTable : FeatureTable) (featureTableProperty : FeatureTableProperty)
    (propertyValue : List Value)
    (h : reachesTypeSelection featureTable.count propertyValue = true) :
    updateExtensionWithJsonProperty gltf classProperty featureTable featureTableProperty
      propertyValue =
    match selectionPolicy (findCompatibleTypes propertyValue) with
    | some .bool => .ok (gltf, classProperty, featureTableProperty)
    | some (.numeric T typeName) =>
      updateExtensionWithJsonNumericProperty T gltf classProperty featureTable
        featureTableProperty propertyValue typeName
    | none => .ok (gltf, classProperty, featureTableProperty) := by
  cases propertyValue with
  | nil => simp [reachesTypeSelection] at h
  | cons firstElement rest =>
    simp only [reachesTypeSelection, Bool.and_eq_true, Bool.not_eq_true',
      decide_eq_false_iff_not] at h
    unfold updateExtensionWithJsonProperty
    simp only [h.1, if_false, h.2, Bool.false_eq_true]
    exact selection_chain (findCompatibleTypes (firstElement :: rest))
      (.ok (gltf, classProperty, featureTableProperty))
      (fun T typeName => updateExtensionWithJsonNumericProperty T gltf classProperty featureTable
        featureTableProperty (firstElement :: rest) typeName)
      (.ok (gltf, classProperty, featureTableProperty))

theorem numeric_appends (T : ElementType) (gltf : Model) (classProperty : ClassProperty)
    (featureTable : FeatureTable) (featureTableProperty : FeatureTableProperty)
    (propertyValue : List Value) (typeName : String) (st : PropertyState)
    (h : updateExtensionWithJsonNumericProperty T gltf classProperty featureTable
        featureTableProperty propertyValue typeName = .ok st) :
    (∃ buffer bufferView, st.1.buffers = gltf.buffers ++ [buffer] ∧
      st.1.bufferViews = gltf.bufferViews ++ [bufferView]) ∧
    st.2.1 = { classProperty with type := some typeName } ∧
    featureTable.count = (propertyValue.length : Int) := by
  obtain ⟨hcount, hsize, xs, hget⟩ := numeric_inv _ _ _ _ _ _ _ _ h
  rw [numeric_ok T gltf classProperty featureTable featureTableProperty propertyValue typeName
    xs hcount hsize hget] at h
  simp only [Except.ok.injEq] at h
  subst h
  exact ⟨⟨_, _, rfl, rfl⟩, rfl, hcount⟩

theorem property_step (gltf : Model) (classProperty : ClassProperty)
    (featureTable : FeatureTable) (featureTableProperty : FeatureTableProperty)
    (propertyValue : Value) (st : PropertyState)
    (h : updateExtensionWithProperty gltf classProperty featureTable featureTableProperty
        propertyValue = .ok st) :
    (takesNumericPath featureTable.count propertyValue = true ∧
      (∃ buffer bufferView, st.1.buffers = gltf.buffers ++ [buffer] ∧
        st.1.bufferViews = gltf.bufferViews ++ [bufferView]) ∧
      0 ≤ featureTable.count) ∨
    (takesNumericPath featureTable.count propertyValue = false ∧
      st = (gltf, classProperty, featureTableProperty)) := by
  cases propertyValue with
  | array elements =>
    simp only [updateExtensionWithProperty] at h
    cases hr : reachesTypeSelection featureTable.count elements with
    | false =>
      rw [jsonProperty_not_reaching _ _ _ _ _ hr] at h
      simp only [Except.ok.injEq] at h
      exact Or.inr ⟨by simp [takesNumericPath, hr], h.symm⟩
    | true =>
      rw [jsonProperty_selection _ _ _ _ _ hr] at h
      cases hs : selectionPolicy (findCompatibleTypes elements) with
      | none =>
        simp only [hs, Except.ok.injEq] at h
        exact Or.inr ⟨by simp [takesNumericPath, hr, hs], h.symm⟩
      | some r =>
        cases r with
        | bool =>
          simp only [hs, Except.ok.injEq] at h
          exact Or.inr ⟨by simp [takesNumericPath, hr, hs], h.symm⟩
        | numeric T typeName =>
          simp only [hs] at h
          obtain ⟨happ, -, hcount⟩ := numeric_appends _ _ _ _ _ _ _ _ h
          exact Or.inl ⟨by simp [takesNumericPath, hr, hs], happ, by rw [hcount]; omega⟩
  | null | bool _ | int _ | double _ | string _ | object _ =>
    simp only [updateExtensionWithProperty, updateExtensionWithBinaryProperty,
      Except.ok.injEq] at h
    exact Or.inr ⟨rfl, h.symm⟩

theorem propertyLoopBody_step (gltf : Model) (classDefinition : CesiumGltf.Class)
    (featureTable : FeatureTable) (member : String × Value) (state2 : LoopState)
    (h : propertyLoopBody (gltf, classDefinition, featureTable) member = .ok state2) :
    state2.2.2.count = featureTable.count ∧
    state2.2.2.classProperty = featureTable.classProperty ∧
    ((takesNumericPath featureTable.count member.2 = true ∧
      (∃ buffer bufferView, state2.1.buffers = gltf.buffers ++ [buffer] ∧
        state2.1.bufferViews = gltf.bufferViews ++ [bufferView]) ∧
      0 ≤ featureTable.count) ∨
    (takesNumericPath featureTable.count member.2 = false ∧ state2.1 = gltf)) := by
  unfold propertyLoopBody at h
  simp only at h
  split at h
  · simp at h
  · rename_i g cp ftp heq
    simp only [Except.ok.injEq] at h
    subst h
    refine ⟨rfl, rfl, ?_⟩
    rcases property_step _ _ _ _ _ _ heq with ⟨h1, h2, h3⟩ | ⟨h1, h2⟩
    · exact Or.inl ⟨h1, h2, h3⟩
    · simp only [Prod.mk.injEq] at h2
      exact Or.inr ⟨h1, h2.1⟩

theorem propertyLoop_steps (members : List (String × Value)) (gltf : Model)
    (classDefinition : CesiumGltf.Class) (featureTable : FeatureTable) (state2 : LoopState)
    (h : propertyLoop members (gltf, classDefinition, featureTable) = .ok state2) :
    state2.2.2.count = featureTable.count ∧
    state2.2.2.classProperty = featureTable.classProperty ∧
    (∃ buffers, state2.1.buffers = gltf.buffers ++ buffers ∧
      buffers.length = numericPathCount featureTable.count members) ∧
    (∃ bufferViews, state2.1.bufferViews = gltf.bufferViews ++ bufferViews ∧
      bufferViews.length = numericPathCount featureTable.count members) ∧
    (0 < numericPathCount featureTable.count members → 0 ≤ featureTable.count) := by
  induction members generalizing gltf classDefinition featureTable with
  | nil =>
    simp only [propertyLoop, Except.ok.injEq] at h
    subst h
    exact ⟨rfl, rfl, ⟨[], by simp, rfl⟩, ⟨[], by simp, rfl⟩, by simp [numericPathCount]⟩
  | cons member rest ih =>
    simp only [propertyLoop] at h
    split at h
    · simp at h
    · rename_i s heq
      obtain ⟨g1, cd1, ft1⟩ := s
      obtain ⟨hc, hcp, hstep⟩ := propertyLoopBody_step _ _ _ _ _ heq
      obtain ⟨ihc, ihcp, ⟨bs, hbs, hbl⟩, ⟨vs, hvs, hvl⟩, ihpos⟩ := ih _ _ _ h
      simp only at hc hcp hstep
      rw [hc] at ihc hbl hvl ihpos
      rw [hcp] at ihcp
      refine ⟨ihc, ihcp, ?_⟩
      rcases hstep with ⟨hnum, ⟨b, v, hb, hv⟩, hpos⟩ | ⟨hnum, hsame⟩
      · refine ⟨⟨b :: bs, by rw [hbs, hb]; simp, ?_⟩, ⟨v :: vs, by rw [hvs, hv]; simp, ?_⟩,
          fun _ => hpos⟩
        · simp [numericPathCount, List.filter_cons, hnum, hbl]
        · simp [numericPathCount, List.filter_cons, hnum, hvl]
      · subst hsame
        refine ⟨⟨bs, hbs, ?_⟩, ⟨vs, hvs, ?_⟩, ?_⟩
        · simp [numericPathCount, List.filter_cons, hnum, hbl]
        · simp [numericPathCount, List.filter_cons, hnum, hvl]
        · intro hp
          apply ihpos
          simpa [numericPathCount, List.filter_cons, hnum] using hp

theorem find_emplace_self {β : Type} (m : StringMap β) (key : String) (value : β) :
    StringMap.find (StringMap.emplace m key value) key =
      some ((StringMap.find m key).getD value) := by
  unfold StringMap.emplace
  cases h : StringMap.find m key with
  | none => simp [StringMap.find_append_singleton, h]
  | some x => simp [h]

theorem upgrade_of_gates (Parse : List Nat → ParseResult) (gltf gltf2 : Model)
    (members : List (String × Value)) (batchLengthValue document : Value)
    (batchTableJsonData batchTableBinaryData : List Nat)
    (hfind : Value.findMember members "BATCH_LENGTH" = some batchLengthValue)
    (hint : batchLengthValue.IsInt64 = true)
    (hparse : Parse batchTableJsonData = .root document)
    (h : upgradeBatchTableToFeatureMetadata Parse gltf (.object members) batchTableJsonData
      batchTableBinaryData = .ok gltf2) :
    ∃ (properties : List (String × Value)) (buffers : List Buffer)
      (bufferViews : List BufferView) (extension : ModelEXT_feature_metadata)
      (schema : Schema) (classDefinition : CesiumGltf.Class) (featureTable : FeatureTable),
      document = .object properties ∧
      gltf2.buffers = gltf.buffers ++
        (if batchTableBinaryData.isEmpty then []
         else [{ byteLength := (batchTableBinaryData.length : Int),
                 data := batchTableBinaryData }]) ++ buffers ∧
      buffers.length = numericPathCount (int64Payload batchLengthValue) properties ∧
      gltf2.bufferViews = gltf.bufferViews ++ bufferViews ∧
      bufferViews.length = numericPathCount (int64Payload batchLengthValue) properties ∧
      (0 < numericPathCount (int64Payload batchLengthValue) properties →
        0 ≤ int64Payload batchLengthValue) ∧
      gltf2.extension = some extension ∧
      extension.schema = some schema ∧
      schema.classes.find "default" = some classDefinition ∧
      extension.featureTables.find "default" = some featureTable ∧
      featureTable.count = int64Payload batchLengthValue ∧
      featureTable.classProperty = some "default" := by
  simp only [upgradeBatchTableToFeatureMetadata, Value.FindMember, hfind, hint, hparse,
    Bool.not_true, Bool.false_eq_true, if_false] at h
  split at h
  · rename_i properties
    split at h
    · simp at h
    · rename_i g cd ft heq
      obtain ⟨hc, hcp, ⟨bs, hbs, hbl⟩, ⟨vs, hvs, hvl⟩, hpos⟩ := propertyLoop_steps _ _ _ _ _ heq
      simp only [Except.ok.injEq] at h
      subst h
      simp only at hc hcp hbs hvs hbl hvl hpos
      refine ⟨properties, bs, vs, _, _, cd, ft, rfl, ?_, hbl, ?_, hvl, hpos, rfl, rfl,
        ?_, ?_, hc, hcp⟩
      rotate_left 2
      · dsimp only
        exact StringMap.find_assign_self _ _ _
      · exact StringMap.find_assign_self _ _ _
      · rw [hbs]
        split <;> simp_all
      · rw [hvs]
        split <;> rfl
  · simp at h

theorem step_all_bool (r : CompatibleTypes) (it : Value) (h : it.IsBool = true) :
    (findCompatibleTypesStep r it).isBool = r.isBool := by
  simp [findCompatibleTypesStep, h]

theorem foldl_all_bool (l : List Value) (r : CompatibleTypes) (h : ∀ e ∈ l, e.IsBool = true) :
    (l.foldl findCompatibleTypesStep r).isBool = r.isBool := by
  induction l generalizing r with
  | nil => rfl
  | cons it rest ih =>
    simp only [List.foldl_cons]
    rw [ih _ (fun e he => h e (List.mem_cons_of_mem _ he))]
    exact step_all_bool r it (h it (List.mem_cons_self _ _))

theorem selectionPolicy_of_isBool (c : CompatibleTypes) (h : c.isBool = true) :
    selectionPolicy c = some .bool := by
  simp [selectionPolicy, orderedFlags, h]

theorem property_unsupported (gltf : Model) (classProperty : ClassProperty)
    (featureTable : FeatureTable) (featureTableProperty : FeatureTableProperty)
    (propertyValue : Value) (h : UnsupportedShape featureTable.count propertyValue) :
    updateExtensionWithProperty gltf classProperty featureTable featureTableProperty
      propertyValue = .ok (gltf, classProperty, featureTableProperty) := by
  cases propertyValue with
  | array elements =>
    simp only [updateExtensionWithProperty]
    cases hr : reachesTypeSelection featureTable.count elements with
    | false => exact jsonProperty_not_reaching _ _ _ _ _ hr
    | true =>
      rw [jsonProperty_selection _ _ _ _ _ hr]
      have hbool : ∀ e ∈ elements, e.IsBool = true := by
        cases elements with
        | nil => simp [reachesTypeSelection] at hr
        | cons firstElement rest =>
          simp only [reachesTypeSelection, Bool.and_eq_true, Bool.not_eq_true',
            decide_eq_false_iff_not, Bool.or_eq_false_iff] at hr
          rcases h with h | h | ⟨f, r, hfr, hf⟩ | h
          · cases h
          · exact absurd h hr.1
          · simp only [List.cons.injEq] at hfr
            obtain ⟨rfl, rfl⟩ := hfr
            obtain ⟨⟨⟨h1, h2⟩, h3⟩, h4⟩ := hr.2
            rcases hf with hf | hf | hf | hf <;> simp_all
          · exact h
      have hflag : (findCompatibleTypes elements).isBool = true := by
        unfold findCompatibleTypes
        rw [foldl_all_bool _ _ hbool]
      rw [selectionPolicy_of_isBool _ hflag]
  | null | bool _ | int _ | double _ | string _ | object _ => rfl

end Cesium3DTiles

namespace Cesium3DTilesSelection

theorem findCreditFrom_some (html : String) (l : List HtmlAndLastFrameNumber) (start id : Nat)
    (h : findCreditFrom html l start = some id) :
    start ≤ id ∧ ∃ entry, l[id - start]? = some entry ∧ entry.html = html := by
  induction l generalizing start with
  | nil => simp [findCreditFrom] at h
  | cons e rest ih =>
    simp only [findCreditFrom] at h
    split_ifs at h with he
    · simp only [Option.some.injEq] at h
      subst h
      exact ⟨Nat.le_refl _, e, by simp, he⟩
    · obtain ⟨hle, entry, hget, hhtml⟩ := ih _ h
      refine ⟨by omega, entry, ?_, hhtml⟩
      have : id - start = (id - (start + 1)) + 1 := by omega
      rw [this, List.getElem?_cons_succ]
      exact hget

theorem findCreditFrom_none (html : String) (l : List HtmlAndLastFrameNumber) (start : Nat)
    (h : findCreditFrom html l start = none) : ∀ e ∈ l, e.html ≠ html := by
  induction l generalizing start with
  | nil => simp
  | cons e rest ih =>
    simp only [findCreditFrom] at h
    split_ifs at h with he
    intro x hx
    rcases List.mem_cons.mp hx with rfl | hx
    · exact he
    · exact ih _ h x hx

theorem findCreditFrom_append_new (html : String) (l : List HtmlAndLastFrameNumber)
    (start : Nat) (n : Int) (h : findCreditFrom html l start = none) :
    findCreditFrom html (l ++ [{ html := html, lastFrameNumber := n }]) start =
      some (start + l.length) := by
  induction l generalizing start with
  | nil => simp [findCreditFrom]
  | cons e rest ih =>
    simp only [findCreditFrom] at h
    split_ifs at h with he
    simp only [List.cons_append, findCreditFrom, he, if_false, List.length_cons, List.append_eq]
    rw [ih _ h]
    congr 1
    omega

theorem findCreditFrom_append_other (html other : String) (l : List HtmlAndLastFrameNumber)
    (start : Nat) (n : Int) (hne : other ≠ html) :
    findCreditFrom html (l ++ [{ html := other, lastFrameNumber := n }]) start =
      findCreditFrom html l start := by
  induction l generalizing start with
  | nil => simp [findCreditFrom, hne]
  | cons e rest ih =>
    simp only [List.cons_append, findCreditFrom, List.append_eq]
    rw [ih]

theorem findCreditFrom_append_found (html : String) (l extra : List HtmlAndLastFrameNumber)
    (start id : Nat) (h : findCreditFrom html l start = some id) :
    findCreditFrom html (l ++ extra) start = some id := by
  induction l generalizing start with
  | nil => simp [findCreditFrom] at h
  | cons e rest ih =>
    simp only [findCreditFrom] at h
    simp only [List.cons_append, findCreditFrom, List.append_eq]
    split_ifs at h ⊢ with he
    · exact h
    · exact ih _ h

theorem findCreditFrom_lt (html : String) (l : List HtmlAndLastFrameNumber) (start id : Nat)
    (h : findCreditFrom html l start = some id) : id < start + l.length := by
  induction l generalizing start with
  | nil => simp [findCreditFrom] at h
  | cons e rest ih =>
    simp only [findCreditFrom] at h
    split_ifs at h with he
    · simp only [Option.some.injEq] at h
      subst h
      simp
    · have := ih _ h
      simp only [List.length_cons]
      omega

end Cesium3DTilesSelection

namespace Cesium3DTiles

open rapidjson CesiumGltf

theorem upgrade_ok_cases (Parse : List Nat → ParseResult) (gltf gltf2 : Model)
    (featureTableJson : Value) (batchTableJsonData batchTableBinaryData : List Nat)
    (h : upgradeBatchTableToFeatureMetadata Parse gltf featureTableJson batchTableJsonData
      batchTableBinaryData = .ok gltf2) :
    gltf2 = gltf ∨
    ∃ members batchLengthValue document,
      featureTableJson = .object members ∧
      Value.findMember members "BATCH_LENGTH" = some batchLengthValue ∧
      batchLengthValue.IsInt64 = true ∧
      Parse batchTableJsonData = .root document := by
  cases featureTableJson with
  | object members =>
    cases hfind : Value.findMember members "BATCH_LENGTH" with
    | none =>
      simp only [upgradeBatchTableToFeatureMetadata, Value.FindMember, hfind,
        Except.ok.injEq] at h
      exact Or.inl h.symm
    | some v =>
      cases hint : v.IsInt64 with
      | false =>
        simp only [upgradeBatchTableToFeatureMetadata, Value.FindMember, hfind, hint,
          Bool.not_false, if_true, Except.ok.injEq] at h
        exact Or.inl h.symm
      | true =>
        cases hparse : Parse batchTableJsonData with
        | parseError code offset =>
          simp only [upgradeBatchTableToFeatureMetadata, Value.FindMember, hfind, hint, hparse,
            Bool.not_true, Bool.false_eq_true, if_false, Except.ok.injEq] at h
          exact Or.inl h.symm
        | root document => exact Or.inr ⟨members, v, document, rfl, hfind, hint, rfl⟩
  | _ => simp [upgradeBatchTableToFeatureMetadata, Value.FindMember] at h

theorem int64Payload_range (v : Value) (h : v.IsInt64 = true) :
    -2 ^ 63 ≤ int64Payload v ∧ int64Payload v < 2 ^ 63 := by
  cases v with
  | int i => simpa [Value.IsInt64, int64Payload] using h
  | _ => simp [Value.IsInt64] at h
end Cesium3DTiles

theorem log2Aux_spec (fuel n : Nat) (hpos : 0 < n) (hfuel : n ≤ fuel) :
    2 ^ log2Aux fuel n ≤ n ∧ n < 2 ^ (log2Aux fuel n + 1) := by
  induction fuel generalizing n with
  | zero => omega
  | succ fuel ih =>
    unfold log2Aux
    by_cases h2 : n < 2
    · simp only [h2, if_true]
      omega
    · simp only [h2, if_false]
      obtain ⟨h1, h3⟩ := ih (n / 2) (by omega) (by omega)
      rw [Nat.pow_succ, Nat.pow_succ, Nat.pow_succ]
      rw [Nat.pow_succ] at h3
      omega

theorem log2Floor_spec (n : Nat) (hpos : 0 < n) :
    2 ^ log2Floor n ≤ n ∧ n < 2 ^ (log2Floor n + 1) :=
  log2Aux_spec n n hpos (Nat.le_refl n)

theorem log2Floor_le_63 (n : Nat) (hpos : 0 < n) (h : n ≤ 2 ^ 63) : log2Floor n ≤ 63 := by
  have h1 := (log2Floor_spec n hpos).1
  by_contra hgt
  have h64 : 64 ≤ log2Floor n := by omega
  have : 2 ^ 64 ≤ 2 ^ log2Floor n := Nat.pow_le_pow_right (by decide) h64
  omega

theorem roundShiftRight_le (sig shift : Nat) : roundShiftRight sig shift ≤ sig / 2 ^ shift + 1 := by
  unfold roundShiftRight
  by_cases h0 : shift = 0
  · simp [h0]
  · simp only [h0, if_false]
    split_ifs <;> omega

theorem encodeBinary_double_magnitude (neg : Bool) (sig : Nat) (hpos : 0 < sig)
    (h : sig ≤ 2 ^ 63) :
    doubleMagnitude (encodeBinary 52 11 neg sig 0) ≤ 1087 * 2 ^ 52 := by
  obtain ⟨hlow, hhigh⟩ := log2Floor_spec sig hpos
  have hL := log2Floor_le_63 sig hpos h
  generalize hLdef : log2Floor sig = L at hlow hhigh hL
  have hn : (if (0 : Int) ≥ max ((L : Int) + 0) (1 - (2 ^ (11 - 1) - 1)) - ((52 : Nat) : Int)
      then sig * 2 ^ ((0 : Int) - (max ((L : Int) + 0) (1 - (2 ^ (11 - 1) - 1)) - ((52 : Nat) : Int))).toNat
      else roundShiftRight sig
        (max ((L : Int) + 0) (1 - (2 ^ (11 - 1) - 1)) - ((52 : Nat) : Int) - 0).toNat) ≤ 2 ^ 53 := by
    have hmax : max ((L : Int) + 0) (1 - (2 ^ (11 - 1) - 1)) = (L : Int) := by
      norm_num
      omega
    rw [hmax]
    by_cases hle : L ≤ 52
    · have h1 : (0 : Int) ≥ (L : Int) - ((52 : Nat) : Int) := by omega
      rw [if_pos h1]
      have h2 : ((0 : Int) - ((L : Int) - ((52 : Nat) : Int))).toNat = 52 - L := by omega
      rw [h2]
      have h3 : 2 ^ (L + 1) * 2 ^ (52 - L) = 2 ^ 53 := by
        rw [← Nat.pow_add]
        congr 1
        omega
      have h4 : sig * 2 ^ (52 - L) < 2 ^ (L + 1) * 2 ^ (52 - L) :=
        Nat.mul_lt_mul_of_pos_right hhigh (Nat.two_pow_pos _)
      omega
    · have h1 : ¬ ((0 : Int) ≥ (L : Int) - ((52 : Nat) : Int)) := by omega
      rw [if_neg h1]
      have h2 : ((L : Int) - ((52 : Nat) : Int) - 0).toNat = L - 52 := by omega
      rw [h2]
      have h3 := roundShiftRight_le sig (L - 52)
      have h4 : sig / 2 ^ (L - 52) < 2 ^ 53 := by
        apply Nat.div_lt_of_lt_mul
        rw [← Nat.pow_add]
        have : L - 52 + 53 = L + 1 := by omega
        rw [this]
        exact hhigh
      omega
  have hbody : (max ((L : Int) + 0) (1 - (2 ^ (11 - 1) - 1)) - (1 - (2 ^ (11 - 1) - 1))).toNat
      ≤ 1085 := by
    have hmax : max ((L : Int) + 0) (1 - (2 ^ (11 - 1) - 1)) = (L : Int) := by
      norm_num
      omega
    rw [hmax]
    norm_num
    omega
  unfold doubleMagnitude encodeBinary
  simp only [Nat.ne_of_gt hpos, if_false, hLdef]
  generalize (if (0 : Int) ≥ max ((L : Int) + 0) (1 - (2 ^ (11 - 1) - 1)) - ((52 : Nat) : Int)
      then sig * 2 ^ ((0 : Int) - (max ((L : Int) + 0) (1 - (2 ^ (11 - 1) - 1)) - ((52 : Nat) : Int))).toNat
      else roundShiftRight sig
        (max ((L : Int) + 0) (1 - (2 ^ (11 - 1) - 1)) - ((52 : Nat) : Int) - 0).toNat) = n at hn
  generalize (max ((L : Int) + 0) (1 - (2 ^ (11 - 1) - 1)) - (1 - (2 ^ (11 - 1) - 1))).toNat
    = b at hbody
  have hmul : b * 2 ^ 52 ≤ 1085 * 2 ^ 52 := Nat.mul_le_mul_right _ hbody
  cases neg <;> simp only [Bool.false_eq_true, if_false, if_true] <;> omega

theorem doubleOfInt_magnitude (v : Int) (h1 : -2 ^ 63 ≤ v) (h2 : v < 2 ^ 63) :
    doubleMagnitude (doubleOfInt v) ≤ 1087 * 2 ^ 52 := by
  unfold doubleOfInt
  by_cases h0 : v.natAbs = 0
  · rw [h0]
    unfold doubleMagnitude encodeBinary
    simp only [if_true]
    split_ifs <;> omega
  · exact encodeBinary_double_magnitude _ _ (Nat.pos_of_ne_zero h0) (by omega)

theorem doubleKey_abs_le (bits : Nat) :
    -(doubleMagnitude bits : Int) ≤ doubleKey bits ∧ doubleKey bits ≤ (doubleMagnitude bits : Int) := by
  unfold doubleKey
  split_ifs <;> omega

set_option maxRecDepth 100000 in
theorem lit2e24_key : (1087 * 2 ^ 52 : Int) ≤ doubleKey Cesium3DTiles.lit2e24 ∧
    doubleKey (Cesium3DTiles.negDouble Cesium3DTiles.lit2e24) ≤ -(1087 * 2 ^ 52 : Int) := by
  decide

set_option maxRecDepth 100000 in
theorem lit2e53_key : (1087 * 2 ^ 52 : Int) ≤ doubleKey Cesium3DTiles.lit2e53 ∧
    doubleKey (Cesium3DTiles.negDouble Cesium3DTiles.lit2e53) ≤ -(1087 * 2 ^ 52 : Int) := by
  decide

namespace Cesium3DTiles

open rapidjson CesiumGltf

theorem int64_within_float_bounds (v : Int) (h1 : -2 ^ 63 ≤ v) (h2 : v < 2 ^ 63) :
    (doubleLE (negDouble lit2e24) (doubleOfInt v) && doubleLE (doubleOfInt v) lit2e24) = true ∧
    (doubleLE (negDouble lit2e53) (doubleOfInt v) && doubleLE (doubleOfInt v) lit2e53) = true := by
  have hm := doubleOfInt_magnitude v h1 h2
  have hk := doubleKey_abs_le (doubleOfInt v)
  have h24 := lit2e24_key
  have h53 := lit2e53_key
  have hm2 : ((doubleMagnitude (doubleOfInt v) : Nat) : Int) ≤ 1087 * 2 ^ 52 := by
    exact_mod_cast hm
  simp only [doubleLE, Bool.and_eq_true, decide_eq_true_eq]
  refine ⟨⟨?_, ?_⟩, ⟨?_, ?_⟩⟩ <;> omega

theorem step_int64_float_flags (r : CompatibleTypes) (v : Int) (h1 : -2 ^ 63 ≤ v)
    (h2 : v < 2 ^ 63) :
    (findCompatibleTypesStep r (.int v)).isFloat32 = r.isFloat32 ∧
    (findCompatibleTypesStep r (.int v)).isFloat64 = r.isFloat64 := by
  have h64 : Value.IsInt64 (.int v) = true := by
    simp only [Value.IsInt64, decide_eq_true_eq]; omega
  obtain ⟨hf32, hf64⟩ := int64_within_float_bounds v h1 h2
  simp only [findCompatibleTypesStep, Value.IsBool, h64, int64Payload, Bool.false_eq_true,
    if_false, if_true, hf32, hf64, Bool.and_true, and_self]

theorem foldl_int64_float_flags (vals : List Int) (r : CompatibleTypes)
    (h : ∀ v ∈ vals, -2 ^ 63 ≤ v ∧ v < 2 ^ 63) :
    ((vals.map Value.int).foldl findCompatibleTypesStep r).isFloat32 = r.isFloat32 ∧
    ((vals.map Value.int).foldl findCompatibleTypesStep r).isFloat64 = r.isFloat64 := by
  induction vals generalizing r with
  | nil => exact ⟨rfl, rfl⟩
  | cons v rest ih =>
    have hv := h v (List.mem_cons_self _ _)
    have hstep := step_int64_float_flags r v hv.1 hv.2
    have hrest := ih (findCompatibleTypesStep r (.int v))
      (fun w hw => h w (List.mem_cons_of_mem _ hw))
    simp only [List.map_cons, List.foldl_cons]
    exact ⟨hrest.1.trans hstep.1, hrest.2.trans hstep.2⟩

theorem step_isInt8_true (r : CompatibleTypes) (it : Value)
    (h : (findCompatibleTypesStep r it).isInt8 = true) :
    r.isInt8 = true ∧ ∃ i : Int, it = .int i ∧ -128 ≤ i ∧ i ≤ 127 := by
  unfold findCompatibleTypesStep at h
  split_ifs at h with h1 h2
  cases it with
  | int i =>
    simp only [int64Payload, isInRange, decide_eq_true_eq, Bool.and_eq_true] at h
    exact ⟨h.1, i, rfl, h.2.1, h.2.2⟩
  | _ => simp [Value.IsInt64] at h2

theorem foldl_isInt8_true (l : List Value) (r : CompatibleTypes)
    (h : (l.foldl findCompatibleTypesStep r).isInt8 = true) :
    r.isInt8 = true ∧ ∀ e ∈ l, ∃ i : Int, e = .int i ∧ -128 ≤ i ∧ i ≤ 127 := by
  induction l generalizing r with
  | nil => exact ⟨h, fun e he => by simp at he⟩
  | cons it rest ih =>
    obtain ⟨hstep, hrest⟩ := ih _ h
    obtain ⟨hr, hit⟩ := step_isInt8_true r it hstep
    refine ⟨hr, ?_⟩
    intro e he
    rcases List.mem_cons.mp he with rfl | he
    · exact hit
    · exact hrest e he

theorem selectionPolicy_int8_flag (c : CompatibleTypes) (typeName : String)
    (h : selectionPolicy c = some (.numeric .int8 typeName)) : c.isInt8 = true := by
  obtain ⟨i8, u8, i16, u16, i32, u32, i64, u64, f32, f64, b⟩ := c
  cases i8
  · exfalso
    cases b; swap; simp [selectionPolicy, orderedFlags] at h
    cases u8; swap; simp [selectionPolicy, orderedFlags] at h
    cases i16; swap; simp [selectionPolicy, orderedFlags] at h
    cases u16; swap; simp [selectionPolicy, orderedFlags] at h
    cases i32; swap; simp [selectionPolicy, orderedFlags] at h
    cases u32; swap; simp [selectionPolicy, orderedFlags] at h
    cases i64; swap; simp [selectionPolicy, orderedFlags] at h
    cases u64; swap; simp [selectionPolicy, orderedFlags] at h
    cases f32; swap; simp [selectionPolicy, orderedFlags] at h
    cases f64; swap; simp [selectionPolicy, orderedFlags] at h
    simp [selectionPolicy, orderedFlags] at h
  · rfl

theorem forall2_of_map_castGet (T : ElementType) (elems : List Value) (xs : List Nat)
    (h : elems.map (castGet T) = xs.map Except.ok) :
    List.Forall₂ (fun it x => castGet T it = .ok x) elems xs := by
  induction elems generalizing xs with
  | nil =>
    cases xs with
    | nil => exact List.Forall₂.nil
    | cons x xs => simp at h
  | cons it rest ih =>
    cases xs with
    | nil => simp at h
    | cons x xs =>
      simp only [List.map_cons, List.cons.injEq] at h
      exact List.Forall₂.cons h.1 (ih xs h.2)

theorem map_castGet_of_forall2 (T : ElementType) (elems : List Value) (xs : List Nat)
    (h : List.Forall₂ (fun it x => castGet T it = .ok x) elems xs) :
    elems.map (castGet T) = xs.map Except.ok := by
  induction h with
  | nil => rfl
  | cons hx _ ih => simp only [List.map_cons, hx, ih]

theorem int8_elements_cast (elems : List Value)
    (h : ∀ e ∈ elems, ∃ i : Int, e = .int i ∧ -128 ≤ i ∧ i ≤ 127) :
    ∃ xs : List Nat, elems.map (castGet .int8) = xs.map Except.ok := by
  induction elems with
  | nil => exact ⟨[], rfl⟩
  | cons it rest ih =>
    obtain ⟨xs, hxs⟩ := ih (fun e he => h e (List.mem_cons_of_mem _ he))
    obtain ⟨i, rfl, h1, h2⟩ := h it (List.mem_cons_self _ _)
    exact ⟨truncateTo 1 i :: xs, by
      simp only [List.map_cons, castGet_int8_small i h1 h2, hxs]⟩

end Cesium3DTiles

namespace Cesium3DTilesSelection

theorem getElem?_lt_of_some {α : Type} (l : List α) (i : Nat) (a : α) (h : l[i]? = some a) :
    i < l.length := by
  by_contra hge
  rw [List.getElem?_eq_none (Nat.le_of_not_lt hge)] at h
  cases h

theorem frameInvariant_start : FrameInvariant {} [] := by
  refine ⟨?_, ⟨by decide, by decide⟩, ?_, ?_, List.nodup_nil⟩
  · intro c hc; cases hc
  · intro c hc; cases hc
  · intro c hc; cases hc

theorem frameInvariant_create (self : CreditSystem) (handles : List Credit) (html : String)
    (h : FrameInvariant self handles) :
    FrameInvariant (self.createCredit html).2 ((self.createCredit html).1 :: handles) := by
  obtain ⟨hvalid, hrange, hshow, hno, hnodup⟩ := h
  cases hf : findCreditFrom html self._credits 0 with
  | some id =>
    have hcreate : self.createCredit html = ({ id := id }, self) := by
      simp only [CreditSystem.createCredit, hf]
    have hlt := findCreditFrom_lt _ _ _ _ hf
    rw [hcreate]
    refine ⟨?_, hrange, hshow, hno, hnodup⟩
    intro c hc
    rcases List.mem_cons.mp hc with rfl | hc
    · simpa using hlt
    · exact hvalid c hc
  | none =>
    have hcreate : self.createCredit html =
        ({ id := self._credits.length },
         { self with _credits := self._credits ++ [{ html := html, lastFrameNumber := -1 }] }) := by
      simp only [CreditSystem.createCredit, hf, List.length_append, List.length_singleton,
        Nat.add_sub_cancel]
    rw [hcreate]
    refine ⟨?_, hrange, ?_, ?_, hnodup⟩
    · intro c hc
      simp only [List.length_append, List.length_singleton]
      rcases List.mem_cons.mp hc with rfl | hc
      · exact Nat.lt_succ_self _
      · exact Nat.lt_succ_of_lt (hvalid c hc)
    · intro c hc
      obtain ⟨entry, hget, hlast⟩ := hshow c hc
      exact ⟨entry, by
        simp only
        rw [List.getElem?_append_left (getElem?_lt_of_some _ _ _ hget)]
        exact hget, hlast⟩
    · intro c hc
      obtain ⟨entry, hget, hlast⟩ := hno c hc
      exact ⟨entry, by
        simp only
        rw [List.getElem?_append_left (getElem?_lt_of_some _ _ _ hget)]
        exact hget, hlast⟩

theorem addCreditToFrame_isSome (self : CreditSystem) (handles : List Credit) (credit : Credit)
    (h : FrameInvariant self handles) (hc : credit ∈ handles) :
    (self.addCreditToFrame credit).isSome = true := by
  have hlt := h.1 credit hc
  have hget : self._credits[credit.id]? = some (self._credits[credit.id]) :=
    List.getElem?_eq_getElem hlt
  simp only [CreditSystem.addCreditToFrame, hget]
  split_ifs <;> rfl

theorem wrapInt32_pred_ne (x : Int) : wrapInt32 (x - 1) ≠ x := by
  unfold wrapInt32; omega

theorem wrapInt32_succ_pred (x : Int) (h1 : -2 ^ 31 ≤ x) (h2 : x < 2 ^ 31) :
    wrapInt32 (wrapInt32 (x + 1) - 1) = x ∧
    -2 ^ 31 ≤ wrapInt32 (x + 1) ∧ wrapInt32 (x + 1) < 2 ^ 31 := by
  unfold wrapInt32; omega

theorem frameInvariant_add (self next : CreditSystem) (handles : List Credit) (credit : Credit)
    (h : FrameInvariant self handles) (hc : credit ∈ handles)
    (hadd : self.addCreditToFrame credit = some next) : FrameInvariant next handles := by
  obtain ⟨hvalid, hrange, hshow, hno, hnodup⟩ := h
  have hlt := hvalid credit hc
  have hget : self._credits[credit.id]? = some (self._credits[credit.id]) :=
    List.getElem?_eq_getElem hlt
  generalize self._credits[credit.id] = entry at hget
  simp only [CreditSystem.addCreditToFrame, hget] at hadd
  by_cases hcur : entry.lastFrameNumber = self._currentFrameNumber
  · simp only [hcur, if_true, Option.some.injEq] at hadd
    subst hadd
    exact ⟨hvalid, hrange, hshow, hno, hnodup⟩
  · simp only [hcur, if_false, Option.some.injEq] at hadd
    subst hadd
    have hnew : ∀ c : Credit, c.id = credit.id →
        ∃ e, (self._credits.set credit.id
          { entry with lastFrameNumber := self._currentFrameNumber })[c.id]? = some e ∧
          e.lastFrameNumber = self._currentFrameNumber := by
      intro c hid
      rw [hid, List.getElem?_set_self hlt]
      exact ⟨_, rfl, rfl⟩
    have hold : ∀ c : Credit, c.id ≠ credit.id →
        (self._credits.set credit.id
          { entry with lastFrameNumber := self._currentFrameNumber })[c.id]? =
          self._credits[c.id]? := by
      intro c hid
      exact List.getElem?_set_ne (Ne.symm hid)
    have hnotin : credit ∉ self._creditsToShowThisFrame := by
      intro hmem
      obtain ⟨e, he, hlast⟩ := hshow credit hmem
      rw [hget] at he
      simp only [Option.some.injEq] at he
      subst he
      exact hcur hlast
    refine ⟨?_, hrange, ?_, ?_, ?_⟩
    · intro c hmem
      simp only [List.length_set]
      exact hvalid c hmem
    · intro c hmem
      simp only
      by_cases hid : c.id = credit.id
      · exact hnew c hid
      · rw [hold c hid]
        rcases List.mem_append.mp hmem with hmem | hmem
        · exact hshow c hmem
        · simp only [List.mem_singleton] at hmem
          exact absurd (by rw [hmem]) hid
    · intro c hmem
      simp only at hmem ⊢
      have hcmem : c ∈ self._creditsToNoLongerShowThisFrame ∧
          (entry.lastFrameNumber = wrapInt32 (self._currentFrameNumber - 1) → c ≠ credit) := by
        split_ifs at hmem with hprev
        · rw [List.mem_filter] at hmem
          exact ⟨hmem.1, fun _ => by simpa using hmem.2⟩
        · exact ⟨hmem, fun hp => absurd hp hprev⟩
      obtain ⟨e, he, hlast⟩ := hno c hcmem.1
      by_cases hid : c.id = credit.id
      · have hceq : c = credit := by
          cases c; cases credit; simp only [Credit.mk.injEq]; exact hid
        subst hceq
        rw [hget] at he
        simp only [Option.some.injEq] at he
        subst he
        exact absurd rfl (hcmem.2 hlast)
      · rw [hold c hid]
        exact ⟨e, he, hlast⟩
    · simp only
      rw [List.nodup_append]
      refine ⟨hnodup, List.nodup_singleton _, ?_⟩
      intro c hc1 hc2
      simp only [List.mem_singleton] at hc2
      subst hc2
      exact hnotin hc1

theorem frameInvariant_nextFrame (self : CreditSystem) (handles : List Credit)
    (h : FrameInvariant self handles) : FrameInvariant self.startNextFrame handles := by
  obtain ⟨hvalid, hrange, hshow, hno, hnodup⟩ := h
  obtain ⟨hback, hr1, hr2⟩ := wrapInt32_succ_pred _ hrange.1 hrange.2
  refine ⟨hvalid, ⟨hr1, hr2⟩, ?_, ?_, List.nodup_nil⟩
  · intro c hc; cases hc
  · intro c hc
    obtain ⟨entry, hget, hlast⟩ := hshow c hc
    exact ⟨entry, hget, by simp only [CreditSystem.startNextFrame]; rw [hback]; exact hlast⟩

theorem frameInvariant_of_reachable (self : CreditSystem) (handles : List Credit)
    (h : Reachable self handles) : FrameInvariant self handles := by
  induction h with
  | start => exact frameInvariant_start
  | create s hs html _ ih => exact frameInvariant_create s hs html ih
  | add s n hs c _ hc hadd ih => exact frameInvariant_add s n hs c ih hc hadd
  | nextFrame s hs _ ih => exact frameInvariant_nextFrame s hs ih

end Cesium3DTilesSelection

namespace Cesium3DTiles

open rapidjson CesiumGltf

/-! ## The claims -/

set_option maxRecDepth 100000

/-- C1: evaluation of the upgrade on Scenario A (`BATCH_LENGTH` 3, a `height` column
`[1, 2, 300]`).  `isInRange` tests every integer type against the `int8_t` bounds, so
300 clears all eight integer flags, INT16 included; the type recorded is `FLOAT32`, the
new buffer has 12 bytes (the floats 1, 2, 300) and the buffer view has stride 4. -/
theorem C1_scenarioA_is_packed_as_float32 :
    findCompatibleTypes [.int 1, .int 2, .int 300] =
      { isInt8 := false, isUint8 := false, isInt16 := false, isUint16 := false,
        isInt32 := false, isUint32 := false, isInt64 := false, isUint64 := false,
        isFloat32 := true, isFloat64 := true, isBool := false } ∧
    updateExtensionWithJsonProperty {} { name := some "height" }
        { classProperty := some "default", count := 3 } {} [.int 1, .int 2, .int 300] =
      .ok ({ buffers := [{ byteLength := 12, data := [0, 0, 128, 63, 0, 0, 0, 64, 0, 0, 150, 67] }],
             bufferViews := [{ buffer := 0, byteOffset := 0, byteStride := some 4 }] },
           { name := some "height", type := some "FLOAT32" }, { bufferView := 0 }) ∧
    upgradeBatchTableToFeatureMetadata exampleParse {} (.object [("BATCH_LENGTH", .int 3)])
        scenarioAText [] =
      .ok { buffers := [{ byteLength := 12, data := [0, 0, 128, 63, 0, 0, 0, 64, 0, 0, 150, 67] }],
            bufferViews := [{ buffer := 0, byteOffset := 0, byteStride := some 4 }],
            extension := some
              { schema := some
                  { classes :=
                      [("default",
                        { properties :=
                            [("height", { name := some "height", type := some "FLOAT32" })] })] },
                featureTables :=
                  [("default",
                    { classProperty := some "default", count := 3,
                      properties := [("height", { bufferView := 0 })] })] } } := by
  decide

/-- C2: for a feature count `N >= 1` (an `int64_t`) and a property array of `N` integers,
each in `[-128, 127]`, `updateExtensionWithJsonProperty` returns with
`ClassProperty.type` set to `"INT8"`, one new buffer of `N` bytes (one byte per element,
its two's complement int8 pattern) and one new buffer view of stride 1. -/
theorem C2_small_integers_infer_int8 (gltf : Model) (classProperty : ClassProperty)
    (featureTable : FeatureTable) (featureTableProperty : FeatureTableProperty)
    (vals : List Int) (hN : 1 ≤ vals.length) (hN64 : vals.length < 2 ^ 63)
    (hcount : featureTable.count = (vals.length : Int))
    (hrange : ∀ v ∈ vals, -128 ≤ v ∧ v ≤ 127) :
    ∃ buffer : Buffer,
      updateExtensionWithJsonProperty gltf classProperty featureTable featureTableProperty
          (vals.map Value.int) =
        .ok ({ gltf with
                buffers := gltf.buffers ++ [buffer],
                bufferViews := gltf.bufferViews ++
                  [{ buffer := wrapInt32 gltf.buffers.length, byteOffset := 0,
                     byteStride := some 1 }] },
             { classProperty with type := some "INT8" },
             { featureTableProperty with bufferView := wrapInt32 gltf.bufferViews.length }) ∧
      buffer.byteLength = (vals.length : Int) ∧
      buffer.data.length = vals.length ∧
      buffer.data = packBytes 1 (vals.map (truncateTo 1)) := by
  have hlen : (vals.map Value.int).length = vals.length := List.length_map _ _
  have hbool : (findCompatibleTypes (vals.map Value.int)).isBool = false := by
    cases vals with
    | nil => simp at hN
    | cons v rest =>
      have hv := hrange v (List.mem_cons_self _ _)
      simp only [findCompatibleTypes, List.map_cons, List.foldl_cons]
      exact foldl_isBool_false _ _ (step_int8 _ v hv.1 hv.2).2
  have hint8 : (findCompatibleTypes (vals.map Value.int)).isInt8 = true := by
    unfold findCompatibleTypes
    rw [foldl_int8 vals _ hrange]
  have hnum := numeric_ok .int8 gltf classProperty featureTable featureTableProperty
    (vals.map Value.int) "INT8" (vals.map (truncateTo 1)) (by rw [hlen]; exact hcount)
    (by rw [hlen]; simp only [ElementType.sizeOf, vectorMaxSize]; omega)
    (forall2_int8 vals hrange)
  refine ⟨{ byteLength := (vals.length : Int), data := packBytes 1 (vals.map (truncateTo 1)) },
    ?_, rfl, ?_, rfl⟩
  · cases hv : vals with
    | nil => simp [hv] at hN
    | cons v rest =>
      rw [hv] at hnum hbool hint8 hcount
      simp only [List.map_cons] at hnum hbool hint8 ⊢
      simp only [updateExtensionWithJsonProperty, hbool, hint8, hnum, hcount]
      simp [Value.IsArray, Value.IsNull, Value.IsObject, Value.IsString, ElementType.sizeOf]
  · simp [packBytes_length]

theorem C2_witness :
    ∃ buffer : Buffer,
      updateExtensionWithJsonProperty {} { name := some "floor" } { count := 3 } {}
          ([1, 2, -3].map Value.int) =
        .ok ({ ({} : Model) with
                buffers := ({} : Model).buffers ++ [buffer],
                bufferViews := ({} : Model).bufferViews ++
                  [{ buffer := wrapInt32 (({} : Model).buffers.length : Int), byteOffset := 0,
                     byteStride := some 1 }] },
             { ({ name := some "floor" } : ClassProperty) with type := some "INT8" },
             { ({} : FeatureTableProperty) with
               bufferView := wrapInt32 (({} : Model).bufferViews.length : Int) }) ∧
      buffer.byteLength = (([1, 2, -3] : List Int).length : Int) ∧
      buffer.data.length = ([1, 2, -3] : List Int).length ∧
      buffer.data = packBytes 1 (([1, 2, -3] : List Int).map (truncateTo 1)) :=
  C2_small_integers_infer_int8 {} { name := some "floor" } { count := 3 } {} [1, 2, -3]
    (by decide) (by decide) (by decide) (by decide)

/-- C3: evaluation on the array `[300, 2^63]` with feature count 2.  The element 300
clears the uint64 flag (it is outside the `int8_t` bounds that `isInRange<uint64_t>`
tests), the element `2^63` clears the others: every flag is false, no type is recorded
and no buffer is produced, where UINT64 was to be selected. -/
theorem C3_uint64_flag_cleared_by_300 :
    findCompatibleTypes [.int 300, .int (2 ^ 63)] =
      { isInt8 := false, isUint8 := false, isInt16 := false, isUint16 := false,
        isInt32 := false, isUint32 := false, isInt64 := false, isUint64 := false,
        isFloat32 := false, isFloat64 := false, isBool := false } ∧
    updateExtensionWithJsonProperty {} { name := some "id" } { count := 2 } {}
        [.int 300, .int (2 ^ 63)] =
      .ok ({}, { name := some "id", type := none }, { bufferView := -1 }) := by
  decide

/-- C4: evaluation on the array `[true, 1.5]` with feature count 2.  The boolean clears
the float flags and the lossless-float branch then assigns them `true` again, so the
float32 and float64 flags are set in the result and the property is dispatched to the
`FLOAT32` packer, which stops at `Get<float>()` on the boolean. -/
theorem C4_float_after_bool_sets_float_flags :
    findCompatibleTypes [.bool true, .double 0x3FF8000000000000] =
      { isInt8 := false, isUint8 := false, isInt16 := false, isUint16 := false,
        isInt32 := false, isUint32 := false, isInt64 := false, isUint64 := false,
        isFloat32 := true, isFloat64 := true, isBool := false } ∧
    updateExtensionWithJsonProperty {} {} { count := 2 } {}
        [.bool true, .double 0x3FF8000000000000] =
      updateExtensionWithJsonNumericProperty .float {} {} { count := 2 } {}
        [.bool true, .double 0x3FF8000000000000] "FLOAT32" ∧
    updateExtensionWithJsonProperty {} {} { count := 2 } {}
        [.bool true, .double 0x3FF8000000000000] = .error .rapidjsonAssert := by
  decide

/-- C5: evaluation on the array `[-1, 2^63]` with feature count 2.  Only the uint64 flag
survives (`isInRange<uint64_t>(-1)` holds, the bounds tested being those of `int8_t`),
the property is dispatched to the `UINT64` packer, and `Get<uint64_t>()` on `-1` fails
its precondition: no buffer reproducing `-1` is produced. -/
theorem C5_uint64_selected_for_negative_element :
    findCompatibleTypes [.int (-1), .int (2 ^ 63)] =
      { isInt8 := false, isUint8 := false, isInt16 := false, isUint16 := false,
        isInt32 := false, isUint32 := false, isInt64 := false, isUint64 := true,
        isFloat32 := false, isFloat64 := false, isBool := false } ∧
    updateExtensionWithJsonProperty {} {} { count := 2 } {} [.int (-1), .int (2 ^ 63)] =
      updateExtensionWithJsonNumericProperty .uint64 {} {} { count := 2 } {}
        [.int (-1), .int (2 ^ 63)] "UINT64" ∧
    castGet .uint64 (.int (-1)) = .error .rapidjsonAssert ∧
    updateExtensionWithJsonProperty {} {} { count := 2 } {} [.int (-1), .int (2 ^ 63)] =
      .error .rapidjsonAssert := by
  decide

/-- C6: when the feature-table JSON object has no `BATCH_LENGTH` member, or that member
is not an integer in the `int64_t` range, `upgradeBatchTableToFeatureMetadata` returns
and the document is exactly the one it was given, whatever the parser, the document,
the batch table JSON bytes and the binary payload are. -/
theorem C6_missing_or_invalid_batch_length_leaves_document (Parse : List Nat → ParseResult)
    (gltf : Model) (members : List (String × Value))
    (batchTableJsonData batchTableBinaryData : List Nat)
    (h : Value.findMember members "BATCH_LENGTH" = none ∨
      ∃ v, Value.findMember members "BATCH_LENGTH" = some v ∧ v.IsInt64 = false) :
    upgradeBatchTableToFeatureMetadata Parse gltf (.object members) batchTableJsonData
      batchTableBinaryData = .ok gltf := by
  rcases h with h | ⟨v, hv, hint⟩
  · simp [upgradeBatchTableToFeatureMetadata, Value.FindMember, h]
  · simp [upgradeBatchTableToFeatureMetadata, Value.FindMember, hv, hint]

theorem C6_witness :
    (Value.findMember [] "BATCH_LENGTH" = none ∨
      ∃ v, Value.findMember [] "BATCH_LENGTH" = some v ∧ v.IsInt64 = false) ∧
    upgradeBatchTableToFeatureMetadata exampleParse
      { buffers := [{ byteLength := 1, data := [7] }],
        meshes := [{ primitives := [{ attributes := [("_BATCHID", 4)] }] }] }
      (.object []) [123, 125] [1, 2, 3] =
      .ok { buffers := [{ byteLength := 1, data := [7] }],
            meshes := [{ primitives := [{ attributes := [("_BATCHID", 4)] }] }] } :=
  ⟨Or.inl rfl, C6_missing_or_invalid_batch_length_leaves_document _ _ _ _ _ (Or.inl rfl)⟩

/-- C7: when parsing the batch table JSON text fails, `upgradeBatchTableToFeatureMetadata`
returns and the document is exactly the one it was given, for every feature-table JSON
object (a valid `BATCH_LENGTH` included) and every binary payload (non-empty included). -/
theorem C7_parse_error_leaves_document (Parse : List Nat → ParseResult)
    (gltf : Model) (members : List (String × Value))
    (batchTableJsonData batchTableBinaryData : List Nat) (code offset : Nat)
    (h : Parse batchTableJsonData = .parseError code offset) :
    upgradeBatchTableToFeatureMetadata Parse gltf (.object members) batchTableJsonData
      batchTableBinaryData = .ok gltf := by
  simp only [upgradeBatchTableToFeatureMetadata, Value.FindMember, h]
  cases Value.findMember members "BATCH_LENGTH" with
  | none => rfl
  | some v => cases hv : v.IsInt64 <;> simp

theorem C7_witness :
    exampleParse scenarioCText = .parseError 3 10 ∧
    upgradeBatchTableToFeatureMetadata exampleParse
      { buffers := [{ byteLength := 1, data := [7] }],
        meshes := [{ primitives := [{ attributes := [("_BATCHID", 4)] }] }] }
      (.object [("BATCH_LENGTH", .int 3)]) scenarioCText [1, 2, 3] =
      .ok { buffers := [{ byteLength := 1, data := [7] }],
            meshes := [{ primitives := [{ attributes := [("_BATCHID", 4)] }] }] } :=
  ⟨rfl, C7_parse_error_leaves_document _ _ _ _ _ 3 10 rfl⟩

/-- C8: when `updateExtensionWithJsonNumericProperty<T>` returns, on a document whose
buffer and buffer-view counts fit the `int32_t` index fields, exactly one buffer was
appended, with `byteLength` and data size `sizeof(T) * featureTable.count`, and exactly
one buffer view, with `buffer` the index of that buffer, `byteOffset = 0` and
`byteStride = sizeof(T)`; `featureTableProperty.bufferView` is the index of that view. -/
theorem C8_numeric_path_appends_buffer_and_view (T : ElementType) (gltf : Model)
    (classProperty : ClassProperty) (featureTable : FeatureTable)
    (featureTableProperty : FeatureTableProperty) (propertyValue : List Value)
    (typeName : String) (st : PropertyState)
    (hbuffers : gltf.buffers.length < 2 ^ 31) (hviews : gltf.bufferViews.length < 2 ^ 31)
    (h : updateExtensionWithJsonNumericProperty T gltf classProperty featureTable
        featureTableProperty propertyValue typeName = .ok st) :
    ∃ (buffer : Buffer) (bufferView : BufferView),
      st.1.buffers = gltf.buffers ++ [buffer] ∧
      buffer.byteLength = (T.sizeOf : Int) * featureTable.count ∧
      (buffer.data.length : Int) = (T.sizeOf : Int) * featureTable.count ∧
      st.1.bufferViews = gltf.bufferViews ++ [bufferView] ∧
      bufferView.buffer = (gltf.buffers.length : Int) ∧
      bufferView.byteOffset = 0 ∧
      bufferView.byteStride = some (T.sizeOf : Int) ∧
      st.2.2.bufferView = (gltf.bufferViews.length : Int) := by
  obtain ⟨hcount, hsize, xs, hget⟩ := numeric_inv _ _ _ _ _ _ _ _ h
  rw [numeric_ok T gltf classProperty featureTable featureTableProperty propertyValue typeName
    xs hcount hsize hget] at h
  simp only [Except.ok.injEq] at h
  subst h
  have hxs : xs.length = propertyValue.length := (List.Forall₂.length_eq hget).symm
  refine ⟨_, _, rfl, ?_, ?_, rfl, wrapInt32_of_small _ hbuffers, rfl, rfl,
    wrapInt32_of_small _ hviews⟩
  · simp only [hcount]; push_cast; rfl
  · simp only [hcount, packBytes_length, hxs]; push_cast; rfl

theorem C8_witness :
    updateExtensionWithJsonNumericProperty .uint64
        { buffers := [{ byteLength := 1, data := [7] }] } {} { count := 2 } {}
        [.int 1, .int 300] "UINT64" =
      .ok ({ buffers :=
               [{ byteLength := 1, data := [7] },
                { byteLength := 16, data := [1, 0, 0, 0, 0, 0, 0, 0, 44, 1, 0, 0, 0, 0, 0, 0] }],
             bufferViews := [{ buffer := 1, byteOffset := 0, byteStride := some 8 }] },
           { type := some "UINT64" }, { bufferView := 0 }) ∧
    ∃ (buffer : Buffer) (bufferView : BufferView),
      [({ byteLength := 1, data := [7] } : Buffer),
        { byteLength := 16, data := [1, 0, 0, 0, 0, 0, 0, 0, 44, 1, 0, 0, 0, 0, 0, 0] }] =
        [{ byteLength := 1, data := [7] }] ++ [buffer] ∧
      buffer.byteLength = (ElementType.uint64.sizeOf : Int) * 2 ∧
      (buffer.data.length : Int) = (ElementType.uint64.sizeOf : Int) * 2 ∧
      [({ buffer := 1, byteOffset := 0, byteStride := some 8 } : BufferView)] =
        [] ++ [bufferView] ∧
      bufferView.buffer = 1 ∧
      bufferView.byteOffset = 0 ∧
      bufferView.byteStride = some (ElementType.uint64.sizeOf : Int) ∧
      ({ bufferView := 0 } : FeatureTableProperty).bufferView = 0 :=
  ⟨by decide,
   C8_numeric_path_appends_buffer_and_view .uint64
    { buffers := [{ byteLength := 1, data := [7] }] } {} { count := 2 } {}
    [.int 1, .int 300] "UINT64"
    ({ buffers :=
         [{ byteLength := 1, data := [7] },
          { byteLength := 16, data := [1, 0, 0, 0, 0, 0, 0, 0, 44, 1, 0, 0, 0, 0, 0, 0] }],
       bufferViews := [{ buffer := 1, byteOffset := 0, byteStride := some 8 }] },
     { type := some "UINT64" }, { bufferView := 0 })
    (by decide) (by decide) (by decide)⟩

/-- C9: in a run of `upgradeBatchTableToFeatureMetadata` that passes both gates and
returns, every mesh primitive that maps `"_BATCHID"` to an accessor `a` and carries no
feature-metadata extension ends up, at the same position, with `"_FEATURE_ID_0"` mapped
to `a`, without a `"_BATCHID"` key, and with an extension holding exactly one
feature-id attribute: feature table `"default"`, attribute `"_FEATURE_ID_0"`. -/
theorem C9_batchid_renamed_to_feature_id (Parse : List Nat → ParseResult) (gltf gltf2 : Model)
    (members : List (String × Value)) (batchLengthValue document : Value)
    (batchTableJsonData batchTableBinaryData : List Nat)
    (i j : Nat) (mesh : Mesh) (primitive : MeshPrimitive) (a : Int)
    (hfind : Value.findMember members "BATCH_LENGTH" = some batchLengthValue)
    (hint : batchLengthValue.IsInt64 = true)
    (hparse : Parse batchTableJsonData = .root document)
    (h : upgradeBatchTableToFeatureMetadata Parse gltf (.object members) batchTableJsonData
      batchTableBinaryData = .ok gltf2)
    (hmesh : gltf.meshes[i]? = some mesh) (hprim : mesh.primitives[j]? = some primitive)
    (hid : primitive.attributes.find "_BATCHID" = some a)
    (hext : primitive.extension = none) :
    ∃ mesh2 primitive2,
      gltf2.meshes[i]? = some mesh2 ∧ mesh2.primitives[j]? = some primitive2 ∧
      primitive2.attributes.find "_FEATURE_ID_0" = some a ∧
      primitive2.attributes.find "_BATCHID" = none ∧
      primitive2.extension =
        some { featureIdAttributes :=
          [{ featureTable := "default",
             featureIds := { attributeName := some "_FEATURE_ID_0" } }] } := by
  have hm := upgrade_meshes_of_gates Parse gltf gltf2 members batchLengthValue document _ _
    hfind hint hparse h
  refine ⟨meshLoopBody mesh, primitiveLoopBody primitive, ?_, ?_,
    primitiveLoopBody_renames primitive a hid hext⟩
  · rw [hm, List.getElem?_map, hmesh]; rfl
  · simp only [meshLoopBody, List.getElem?_map, hprim]; rfl

theorem C9_witness :
    upgradeBatchTableToFeatureMetadata exampleParse scenarioD
        (.object [("BATCH_LENGTH", .int 3)]) [123, 125] [] = .ok scenarioDUpgraded ∧
    ∃ mesh2 primitive2,
      scenarioDUpgraded.meshes[0]? = some mesh2 ∧ mesh2.primitives[0]? = some primitive2 ∧
      primitive2.attributes.find "_FEATURE_ID_0" = some 4 ∧
      primitive2.attributes.find "_BATCHID" = none ∧
      primitive2.extension =
        some { featureIdAttributes :=
          [{ featureTable := "default",
             featureIds := { attributeName := some "_FEATURE_ID_0" } }] } :=
  ⟨by decide,
   C9_batchid_renamed_to_feature_id exampleParse scenarioD scenarioDUpgraded
    [("BATCH_LENGTH", .int 3)] (.int 3) (.object []) [123, 125] [] 0 0
    { primitives :=
        [{ attributes := [("POSITION", 0), ("_BATCHID", 4)] },
         { attributes := [("POSITION", 1)] }] }
    { attributes := [("POSITION", 0), ("_BATCHID", 4)] } 4
    rfl rfl rfl (by decide) rfl rfl (by decide) rfl⟩

/-- C10: whenever `upgradeBatchTableToFeatureMetadata` returns, every mesh primitive
without a `"_BATCHID"` attribute is found unchanged at the same position: same attribute
map, same (possibly absent) extension, whatever the batch table holds. -/
theorem C10_primitive_without_batchid_untouched (Parse : List Nat → ParseResult)
    (gltf gltf2 : Model) (featureTableJson : Value)
    (batchTableJsonData batchTableBinaryData : List Nat)
    (i j : Nat) (mesh : Mesh) (primitive : MeshPrimitive)
    (h : upgradeBatchTableToFeatureMetadata Parse gltf featureTableJson batchTableJsonData
      batchTableBinaryData = .ok gltf2)
    (hmesh : gltf.meshes[i]? = some mesh) (hprim : mesh.primitives[j]? = some primitive)
    (hid : primitive.attributes.find "_BATCHID" = none) :
    ∃ mesh2,
      gltf2.meshes[i]? = some mesh2 ∧ mesh2.primitives[j]? = some primitive ∧
      mesh2.primitives.length = mesh.primitives.length := by
  rcases upgrade_meshes_cases Parse gltf gltf2 featureTableJson _ _ h with hm | hm
  · exact ⟨mesh, by rw [hm]; exact hmesh, hprim, rfl⟩
  · refine ⟨meshLoopBody mesh, ?_, ?_, ?_⟩
    · rw [hm, List.getElem?_map, hmesh]; rfl
    · simp only [meshLoopBody, List.getElem?_map, hprim, Option.map_some',
        primitiveLoopBody_untouched primitive hid]
    · simp [meshLoopBody]

theorem C10_witness :
    upgradeBatchTableToFeatureMetadata exampleParse scenarioD
        (.object [("BATCH_LENGTH", .int 3)]) [123, 125] [] = .ok scenarioDUpgraded ∧
    ∃ mesh2,
      scenarioDUpgraded.meshes[0]? = some mesh2 ∧
      mesh2.primitives[1]? = some { attributes := [("POSITION", 1)] } ∧
      mesh2.primitives.length = 2 :=
  ⟨by decide,
   C10_primitive_without_batchid_untouched exampleParse scenarioD scenarioDUpgraded
    (.object [("BATCH_LENGTH", .int 3)]) [123, 125] [] 0 1
    { primitives :=
        [{ attributes := [("POSITION", 0), ("_BATCHID", 4)] },
         { attributes := [("POSITION", 1)] }] }
    { attributes := [("POSITION", 1)] }
    (by decide) (by decide) (by decide) (by decide)⟩


/-- C11: for a property whose value is of an unsupported shape (not an array, or an
array that is empty, shorter than the feature count, starts with an array, null, object
or string, or holds booleans only), the body of the property loop returns with the same
document (no buffer, no buffer view appended) and with a `ClassProperty` under the
property name whose `name` is set and whose `type` is what the entry held before: `none`
for a name not seen before. -/
theorem C11_unsupported_shapes_leave_type_unset (gltf : Model)
    (classDefinition : CesiumGltf.Class) (featureTable : FeatureTable) (name : String)
    (value : Value) (h : UnsupportedShape featureTable.count value) :
    ∃ (classDefinition2 : CesiumGltf.Class) (featureTable2 : FeatureTable)
      (classProperty : ClassProperty),
      propertyLoopBody (gltf, classDefinition, featureTable) (name, value) =
        .ok (gltf, classDefinition2, featureTable2) ∧
      classDefinition2.properties.find name = some classProperty ∧
      classProperty.name = some name ∧
      classProperty.type = ((classDefinition.properties.find name).getD {}).type ∧
      (classDefinition.properties.find name = none → classProperty.type = none) := by
  let classProperty : ClassProperty :=
    { ((StringMap.emplace classDefinition.properties name {}).find name).getD {} with
      name := some name }
  let featureTableProperty : FeatureTableProperty :=
    ((StringMap.emplace featureTable.properties name {}).find name).getD {}
  have hstep := property_unsupported gltf classProperty
    { featureTable with properties := featureTable.properties.emplace name {} }
    featureTableProperty value h
  have hbody : propertyLoopBody (gltf, classDefinition, featureTable) (name, value) =
      .ok (gltf,
        { properties :=
            (StringMap.emplace classDefinition.properties name {}).assign name classProperty },
        { featureTable with
          properties :=
            (StringMap.emplace featureTable.properties name {}).assign name
              featureTableProperty }) := by
    simp only [propertyLoopBody, hstep, classProperty, featureTableProperty]
  refine ⟨_, _, classProperty, hbody, ?_, rfl, ?_, ?_⟩
  · exact StringMap.find_assign_self _ _ _
  · simp only [classProperty, find_emplace_self, Option.getD_some]
  · intro hnone
    simp only [classProperty, find_emplace_self, Option.getD_some, hnone, Option.getD_none]

theorem C11_witness :
    UnsupportedShape 3 (.array [.string "a", .string "b", .string "c"]) ∧
    ∃ (classDefinition2 : CesiumGltf.Class) (featureTable2 : FeatureTable)
      (classProperty : ClassProperty),
      propertyLoopBody ({}, {}, { classProperty := some "default", count := 3 })
          ("label", .array [.string "a", .string "b", .string "c"]) =
        .ok ({}, classDefinition2, featureTable2) ∧
      classDefinition2.properties.find "label" = some classProperty ∧
      classProperty.name = some "label" ∧
      classProperty.type = ((({} : CesiumGltf.Class).properties.find "label").getD {}).type ∧
      (({} : CesiumGltf.Class).properties.find "label" = none → classProperty.type = none) :=
  ⟨Or.inr (Or.inr (Or.inl ⟨_, _, rfl, Or.inr (Or.inr (Or.inr rfl))⟩)),
   C11_unsupported_shapes_leave_type_unset {} {} { classProperty := some "default", count := 3 }
    "label" (.array [.string "a", .string "b", .string "c"])
    (Or.inr (Or.inr (Or.inl ⟨_, _, rfl, Or.inr (Or.inr (Or.inr rfl))⟩)))⟩

/-- C12: in a run of `upgradeBatchTableToFeatureMetadata` that passes both gates and
returns, the document carries the feature-metadata extension with a schema holding a
class named `default` and with a feature table named `default` whose `count` is the
`BATCH_LENGTH` value and whose `classProperty` is `default`, whatever the properties
of the batch table are. -/
theorem C12_default_class_and_feature_table (Parse : List Nat → ParseResult)
    (gltf gltf2 : Model) (members : List (String × Value)) (batchLengthValue document : Value)
    (batchTableJsonData batchTableBinaryData : List Nat)
    (hfind : Value.findMember members "BATCH_LENGTH" = some batchLengthValue)
    (hint : batchLengthValue.IsInt64 = true)
    (hparse : Parse batchTableJsonData = .root document)
    (h : upgradeBatchTableToFeatureMetadata Parse gltf (.object members) batchTableJsonData
      batchTableBinaryData = .ok gltf2) :
    ∃ (extension : ModelEXT_feature_metadata) (schema : Schema)
      (classDefinition : CesiumGltf.Class) (featureTable : FeatureTable),
      gltf2.extension = some extension ∧
      extension.schema = some schema ∧
      schema.classes.find "default" = some classDefinition ∧
      extension.featureTables.find "default" = some featureTable ∧
      featureTable.count = int64Payload batchLengthValue ∧
      featureTable.classProperty = some "default" := by
  obtain ⟨_, _, _, extension, schema, classDefinition, featureTable, -, -, -, -, -, -, h1, h2,
    h3, h4, h5, h6⟩ := upgrade_of_gates Parse gltf gltf2 members batchLengthValue document _ _
      hfind hint hparse h
  exact ⟨extension, schema, classDefinition, featureTable, h1, h2, h3, h4, h5, h6⟩

theorem C12_witness :
    upgradeBatchTableToFeatureMetadata exampleParse scenarioADocument
        (.object [("BATCH_LENGTH", .int 3)]) scenarioAText [9, 8] = .ok scenarioAUpgraded ∧
    ∃ (extension : ModelEXT_feature_metadata) (schema : Schema)
      (classDefinition : CesiumGltf.Class) (featureTable : FeatureTable),
      scenarioAUpgraded.extension = some extension ∧
      extension.schema = some schema ∧
      schema.classes.find "default" = some classDefinition ∧
      extension.featureTables.find "default" = some featureTable ∧
      featureTable.count = int64Payload (.int 3) ∧
      featureTable.classProperty = some "default" :=
  ⟨by decide,
   C12_default_class_and_feature_table exampleParse scenarioADocument scenarioAUpgraded
    [("BATCH_LENGTH", .int 3)] (.int 3)
    (.object [("height", .array [.int 1, .int 2, .int 300])]) scenarioAText [9, 8]
    rfl rfl rfl (by decide)⟩

/-- C13: in a run that passes both gates and returns, a non-empty binary payload is
found, byte for byte and with `byteLength` its size, in the buffer at the index that was
the buffer count before the call, followed by one buffer per property dispatched to the
numeric packer; with an empty payload no buffer is created for it, and the number of
buffers appended is the number of properties dispatched to the numeric packer. -/
theorem C13_binary_payload_buffer (Parse : List Nat → ParseResult)
    (gltf gltf2 : Model) (members : List (String × Value)) (batchLengthValue document : Value)
    (batchTableJsonData batchTableBinaryData : List Nat)
    (hfind : Value.findMember members "BATCH_LENGTH" = some batchLengthValue)
    (hint : batchLengthValue.IsInt64 = true)
    (hparse : Parse batchTableJsonData = .root document)
    (h : upgradeBatchTableToFeatureMetadata Parse gltf (.object members) batchTableJsonData
      batchTableBinaryData = .ok gltf2) :
    ∃ properties : List (String × Value),
      document = .object properties ∧
      (batchTableBinaryData ≠ [] →
        gltf2.buffers[gltf.buffers.length]? =
          some { byteLength := (batchTableBinaryData.length : Int),
                 data := batchTableBinaryData } ∧
        gltf2.buffers.length = gltf.buffers.length + 1 +
          numericPathCount (int64Payload batchLengthValue) properties) ∧
      (batchTableBinaryData = [] →
        gltf2.buffers.length = gltf.buffers.length +
          numericPathCount (int64Payload batchLengthValue) properties) := by
  obtain ⟨properties, buffers, _, _, _, _, _, hdoc, hbuffers, hlen, -⟩ :=
    upgrade_of_gates Parse gltf gltf2 members batchLengthValue document _ _
      hfind hint hparse h
  refine ⟨properties, hdoc, ?_, ?_⟩
  · intro hne
    have hempty : batchTableBinaryData.isEmpty = false := by
      cases batchTableBinaryData with
      | nil => exact absurd rfl hne
      | cons b rest => rfl
    simp only [hempty, Bool.false_eq_true, if_false] at hbuffers
    constructor
    · rw [hbuffers, List.append_assoc, List.getElem?_append_right (Nat.le_refl _)]
      simp
    · rw [hbuffers]
      simp only [List.length_append, List.length_singleton, hlen]
  · intro hnil
    subst hnil
    simp only [List.isEmpty_nil, if_true, List.append_nil] at hbuffers
    rw [hbuffers, List.length_append, hlen]

theorem C13_witness :
    upgradeBatchTableToFeatureMetadata exampleParse scenarioADocument
        (.object [("BATCH_LENGTH", .int 3)]) scenarioAText [9, 8] = .ok scenarioAUpgraded ∧
    ∃ properties : List (String × Value),
      Value.object [("height", .array [.int 1, .int 2, .int 300])] = .object properties ∧
      (([9, 8] : List Nat) ≠ [] →
        scenarioAUpgraded.buffers[scenarioADocument.buffers.length]? =
          some { byteLength := ((([9, 8] : List Nat).length : Nat) : Int), data := [9, 8] } ∧
        scenarioAUpgraded.buffers.length = scenarioADocument.buffers.length + 1 +
          numericPathCount (int64Payload (.int 3)) properties) ∧
      (([9, 8] : List Nat) = [] →
        scenarioAUpgraded.buffers.length = scenarioADocument.buffers.length +
          numericPathCount (int64Payload (.int 3)) properties) :=
  ⟨by decide,
   C13_binary_payload_buffer exampleParse scenarioADocument scenarioAUpgraded
    [("BATCH_LENGTH", .int 3)] (.int 3)
    (.object [("height", .array [.int 1, .int 2, .int 300])]) scenarioAText [9, 8]
    rfl rfl rfl (by decide)⟩

/-- C14: whenever `upgradeBatchTableToFeatureMetadata` returns, the buffer list it was
given is a prefix of the resulting buffer list and the buffer-view list it was given is a
prefix of the resulting buffer-view list: every buffer and buffer view is found
unchanged at its index. -/
theorem C14_buffers_and_views_append_only (Parse : List Nat → ParseResult)
    (gltf gltf2 : Model) (featureTableJson : Value)
    (batchTableJsonData batchTableBinaryData : List Nat)
    (h : upgradeBatchTableToFeatureMetadata Parse gltf featureTableJson batchTableJsonData
      batchTableBinaryData = .ok gltf2) :
    gltf.buffers <+: gltf2.buffers ∧ gltf.bufferViews <+: gltf2.bufferViews ∧
    (∀ (i : Nat) buffer, gltf.buffers[i]? = some buffer → gltf2.buffers[i]? = some buffer) ∧
    (∀ (i : Nat) bufferView, gltf.bufferViews[i]? = some bufferView →
      gltf2.bufferViews[i]? = some bufferView) := by
  have key : gltf.buffers <+: gltf2.buffers ∧ gltf.bufferViews <+: gltf2.bufferViews := by
    rcases upgrade_ok_cases Parse gltf gltf2 featureTableJson _ _ h with
      heq | ⟨members, v, document, rfl, hfind, hint, hparse⟩
    · subst heq
      exact ⟨List.prefix_refl _, List.prefix_refl _⟩
    · obtain ⟨_, buffers, bufferViews, _, _, _, _, -, hbuffers, -, hviews, -⟩ :=
        upgrade_of_gates Parse gltf gltf2 members v document _ _ hfind hint hparse h
      refine ⟨?_, ⟨bufferViews, hviews.symm⟩⟩
      rw [hbuffers, List.append_assoc]
      exact List.prefix_append _ _
  refine ⟨key.1, key.2, ?_, ?_⟩
  · intro i buffer hi
    obtain ⟨rest, hrest⟩ := key.1
    have hlt : i < gltf.buffers.length := by
      by_contra hge
      rw [List.getElem?_eq_none (not_lt.mp hge)] at hi
      cases hi
    rw [← hrest, List.getElem?_append_left hlt]
    exact hi
  · intro i bufferView hi
    obtain ⟨rest, hrest⟩ := key.2
    have hlt : i < gltf.bufferViews.length := by
      by_contra hge
      rw [List.getElem?_eq_none (not_lt.mp hge)] at hi
      cases hi
    rw [← hrest, List.getElem?_append_left hlt]
    exact hi

theorem C14_witness :
    upgradeBatchTableToFeatureMetadata exampleParse scenarioADocument
        (.object [("BATCH_LENGTH", .int 3)]) scenarioAText [9, 8] = .ok scenarioAUpgraded ∧
    (scenarioADocument.buffers <+: scenarioAUpgraded.buffers ∧
     scenarioADocument.bufferViews <+: scenarioAUpgraded.bufferViews ∧
     (∀ (i : Nat) buffer, scenarioADocument.buffers[i]? = some buffer →
       scenarioAUpgraded.buffers[i]? = some buffer) ∧
     (∀ (i : Nat) bufferView, scenarioADocument.bufferViews[i]? = some bufferView →
       scenarioAUpgraded.bufferViews[i]? = some bufferView)) :=
  ⟨by decide,
   C14_buffers_and_views_append_only exampleParse scenarioADocument scenarioAUpgraded
    (.object [("BATCH_LENGTH", .int 3)]) scenarioAText [9, 8] (by decide)⟩

/-- C15, counterexample: `BATCH_LENGTH` -1 is an `int64_t`, so it passes the gate; with
an empty batch table the upgrade returns and the `default` feature table records the
count -1, which is negative. -/
theorem C15_negative_batch_length_is_recorded :
    Value.IsInt64 (.int (-1)) = true ∧
    upgradeBatchTableToFeatureMetadata exampleParse {} (.object [("BATCH_LENGTH", .int (-1))])
        [123, 125] [] = .ok negativeCountUpgraded ∧
    ∃ (extension : ModelEXT_feature_metadata) (featureTable : FeatureTable),
      negativeCountUpgraded.extension = some extension ∧
      extension.featureTables.find "default" = some featureTable ∧
      featureTable.count < 0 :=
  ⟨by decide, by decide,
   { schema := some { classes := [("default", {})] },
     featureTables := [("default", { classProperty := some "default", count := -1 })] },
   { classProperty := some "default", count := -1 }, rfl, by decide, by decide⟩

/-- C15, amended: in a run that passes both gates and returns, the count recorded in
the `default` feature table is the `BATCH_LENGTH` value itself, an integer of the
`int64_t` range that may be negative; it is `>= 0` in every run that packs a property,
that is, appends a buffer view. -/
theorem C15_recorded_count_is_batch_length (Parse : List Nat → ParseResult)
    (gltf gltf2 : Model) (members : List (String × Value)) (batchLengthValue document : Value)
    (batchTableJsonData batchTableBinaryData : List Nat)
    (hfind : Value.findMember members "BATCH_LENGTH" = some batchLengthValue)
    (hint : batchLengthValue.IsInt64 = true)
    (hparse : Parse batchTableJsonData = .root document)
    (h : upgradeBatchTableToFeatureMetadata Parse gltf (.object members) batchTableJsonData
      batchTableBinaryData = .ok gltf2) :
    ∃ (extension : ModelEXT_feature_metadata) (featureTable : FeatureTable),
      gltf2.extension = some extension ∧
      extension.featureTables.find "default" = some featureTable ∧
      featureTable.count = int64Payload batchLengthValue ∧
      -2 ^ 63 ≤ featureTable.count ∧ featureTable.count < 2 ^ 63 ∧
      (gltf.bufferViews.length < gltf2.bufferViews.length → 0 ≤ featureTable.count) := by
  obtain ⟨_, _, bufferViews, extension, _, _, featureTable, -, -, -, hviews, hvlen, hpos, h1, -,
    -, h4, h5, -⟩ := upgrade_of_gates Parse gltf gltf2 members batchLengthValue document _ _
      hfind hint hparse h
  have hrange := int64Payload_range batchLengthValue hint
  refine ⟨extension, featureTable, h1, h4, h5, by rw [h5]; exact hrange.1,
    by rw [h5]; exact hrange.2, ?_⟩
  intro hlt
  rw [h5]
  apply hpos
  rw [hviews, List.length_append, hvlen] at hlt
  omega

theorem C15_witness :
    upgradeBatchTableToFeatureMetadata exampleParse scenarioADocument
        (.object [("BATCH_LENGTH", .int 3)]) scenarioAText [9, 8] = .ok scenarioAUpgraded ∧
    ∃ (extension : ModelEXT_feature_metadata) (featureTable : FeatureTable),
      scenarioAUpgraded.extension = some extension ∧
      extension.featureTables.find "default" = some featureTable ∧
      featureTable.count = int64Payload (.int 3) ∧
      -2 ^ 63 ≤ featureTable.count ∧ featureTable.count < 2 ^ 63 ∧
      (scenarioADocument.bufferViews.length < scenarioAUpgraded.bufferViews.length →
        0 ≤ featureTable.count) :=
  ⟨by decide,
   C15_recorded_count_is_batch_length exampleParse scenarioADocument scenarioAUpgraded
    [("BATCH_LENGTH", .int 3)] (.int 3)
    (.object [("height", .array [.int 1, .int 2, .int 300])]) scenarioAText [9, 8]
    rfl rfl rfl (by decide)⟩

end Cesium3DTiles

namespace Cesium3DTilesSelection

/-- C16: `createCredit(h)` returns a handle whose html, read with `getHtml`, is `h`;
a second `createCredit(h)` returns the same handle and leaves the system as it is; a
following `createCredit` with a different string returns a different handle; and every
handle that was valid before the call still reads the same html, every html that was
present before the call still maps to the same handle. -/
theorem C16_createCredit_deduplicates (INVALID_CREDIT_MESSAGE : String)
    (self : CreditSystem) (h : String) :
    (self.createCredit h).2.getHtml INVALID_CREDIT_MESSAGE (self.createCredit h).1 = h ∧
    (self.createCredit h).2.createCredit h = ((self.createCredit h).1, (self.createCredit h).2) ∧
    (∀ h2 : String, h2 ≠ h →
      ((self.createCredit h).2.createCredit h2).1 ≠ (self.createCredit h).1) ∧
    (∀ credit : Credit, credit.id < self._credits.length →
      (self.createCredit h).2.getHtml INVALID_CREDIT_MESSAGE credit =
        self.getHtml INVALID_CREDIT_MESSAGE credit) ∧
    (∀ (h0 : String) (id : Nat), findCreditFrom h0 self._credits 0 = some id →
      ((self.createCredit h).2.createCredit h0).1 = { id := id } ∧
      (self.createCredit h0).1 = { id := id }) := by
  cases hf : findCreditFrom h self._credits 0 with
  | some id =>
    have hcreate : self.createCredit h = ({ id := id }, self) := by
      simp only [CreditSystem.createCredit, hf]
    obtain ⟨-, entry, hget, hhtml⟩ := findCreditFrom_some _ _ _ _ hf
    have hlt := findCreditFrom_lt _ _ _ _ hf
    simp only [Nat.sub_zero] at hget
    rw [hcreate]
    refine ⟨?_, hcreate, ?_, fun _ _ => rfl, ?_⟩
    · simp only [CreditSystem.getHtml, hget, hhtml]
    · intro h2 hne
      cases hf2 : findCreditFrom h2 self._credits 0 with
      | some id2 =>
        simp only [CreditSystem.createCredit, hf2, ne_eq, Credit.mk.injEq]
        intro heq
        subst heq
        obtain ⟨-, entry2, hget2, hhtml2⟩ := findCreditFrom_some _ _ _ _ hf2
        simp only [Nat.sub_zero] at hget2
        rw [hget] at hget2
        simp only [Option.some.injEq] at hget2
        subst hget2
        exact hne (hhtml2.symm.trans hhtml)
      | none =>
        simp only [CreditSystem.createCredit, hf2, ne_eq, Credit.mk.injEq, List.length_append,
          List.length_singleton, Nat.add_sub_cancel]
        omega
    · intro h0 id0 hf0
      simp only [CreditSystem.createCredit, hf0, and_self]
  | none =>
    have hcreate : self.createCredit h =
        ({ id := self._credits.length },
         { self with _credits := self._credits ++ [{ html := h, lastFrameNumber := -1 }] }) := by
      simp only [CreditSystem.createCredit, hf, List.length_append, List.length_singleton,
        Nat.add_sub_cancel]
    have hnew := findCreditFrom_append_new h self._credits 0 (-1) hf
    simp only [Nat.zero_add] at hnew
    rw [hcreate]
    refine ⟨?_, ?_, ?_, ?_, ?_⟩
    · simp [CreditSystem.getHtml]
    · simp only [CreditSystem.createCredit, hnew]
    · intro h2 hne
      have hother := findCreditFrom_append_other h2 h self._credits 0 (-1) (Ne.symm hne)
      cases hf2 : findCreditFrom h2 self._credits 0 with
      | some id2 =>
        have hlt := findCreditFrom_lt _ _ _ _ hf2
        simp only [CreditSystem.createCredit, hother, hf2, ne_eq, Credit.mk.injEq]
        omega
      | none =>
        simp only [CreditSystem.createCredit, hother, hf2, ne_eq, Credit.mk.injEq,
          List.length_append, List.length_singleton, Nat.add_sub_cancel]
        omega
    · intro credit hlt
      simp only [CreditSystem.getHtml, List.getElem?_append_left hlt]
    · intro h0 id0 hf0
      have hfound := findCreditFrom_append_found h0 self._credits
        [{ html := h, lastFrameNumber := -1 }] 0 id0 hf0
      simp only [CreditSystem.createCredit, hfound, hf0, and_self]

end Cesium3DTilesSelection

namespace Cesium3DTiles

open rapidjson CesiumGltf

set_option maxRecDepth 100000

/-- C17: evaluation of `findCompatibleTypes` on the one-element array `[200]`.  The
value fits uint8, int16, uint16, int32, uint32, int64 and uint64, and all these flags
come out false, because `isInRange` tests each of them against the `int8_t` bounds; the
bool flag is false. -/
theorem C17_integer_flags_follow_int8_bounds :
    findCompatibleTypes [.int 200] =
      { isInt8 := false, isUint8 := false, isInt16 := false, isUint16 := false,
        isInt32 := false, isUint32 := false, isInt64 := false, isUint64 := false,
        isFloat32 := true, isFloat64 := true, isBool := false } ∧
    isInRange .uint8 200 = false ∧ isInRange .int16 200 = false ∧
    isInRange .int64 200 = false := by
  decide

/-- C18: evaluation of the scan on `[0.1, 1.5]` and on `["x", 0.1]`.  The float32 flag
is false after the prefix `[0.1]` and true after `[0.1, 1.5]`; the float64 flag is false
after the prefix `["x"]` and true after `["x", 0.1]`.  With feature count 2 the array
`[0.1, 1.5]` is packed as `FLOAT32`, the first element rounded to single precision. -/
theorem C18_float_flags_are_set_again :
    (findCompatibleTypes [.double 0x3FB999999999999A]).isFloat32 = false ∧
    (findCompatibleTypes [.double 0x3FB999999999999A, .double 0x3FF8000000000000]).isFloat32
      = true ∧
    (findCompatibleTypes [.string "x"]).isFloat64 = false ∧
    (findCompatibleTypes [.string "x", .double 0x3FB999999999999A]).isFloat64 = true ∧
    updateExtensionWithJsonProperty {} {} { count := 2 } {}
        [.double 0x3FB999999999999A, .double 0x3FF8000000000000] =
      .ok ({ buffers := [{ byteLength := 8, data := [205, 204, 204, 61, 0, 0, 192, 63] }],
             bufferViews := [{ buffer := 0, byteOffset := 0, byteStride := some 4 }] },
           { type := some "FLOAT32" }, { bufferView := 0 }) := by
  decide

/-- C19: for an array that reaches the type selection, `updateExtensionWithJsonProperty`
acts on the first flag that is true in the order bool, int8, uint8, int16, uint16, int32,
uint32, int64, uint64, float32, float64.  The boolean choice and the absence of a true
flag return with nothing recorded and nothing appended.  A numeric choice calls the
packer for that element type with the matching type name, and then:
when the array has exactly `featureTable.count` elements, its bytes fit a vector and
every element passes the accessor of the chosen type (`xs` being the patterns read), the
call returns, the matching name is recorded as `ClassProperty.type`, and one buffer
holding the packed patterns and one buffer view are appended; the call returns in no
other case; whenever it returns, that name is recorded and one buffer and one buffer view
are appended.  For the choice int8 every element passes the accessor, so the call returns
as soon as the array has exactly `featureTable.count` elements that fit a vector. -/
theorem C19_selection_policy_first_true_flag (gltf : Model) (classProperty : ClassProperty)
    (featureTable : FeatureTable) (featureTableProperty : FeatureTableProperty)
    (propertyValue : List Value)
    (h : reachesTypeSelection featureTable.count propertyValue = true) :
    (updateExtensionWithJsonProperty gltf classProperty featureTable featureTableProperty
        propertyValue =
      match selectionPolicy (findCompatibleTypes propertyValue) with
      | some .bool => .ok (gltf, classProperty, featureTableProperty)
      | some (.numeric T typeName) =>
        updateExtensionWithJsonNumericProperty T gltf classProperty featureTable
          featureTableProperty propertyValue typeName
      | none => .ok (gltf, classProperty, featureTableProperty)) ∧
    (∀ (T : ElementType) (typeName : String),
      selectionPolicy (findCompatibleTypes propertyValue) = some (.numeric T typeName) →
      (∀ xs : List Nat,
        featureTable.count = (propertyValue.length : Int) →
        T.sizeOf * propertyValue.length ≤ vectorMaxSize →
        propertyValue.map (castGet T) = xs.map Except.ok →
        updateExtensionWithJsonProperty gltf classProperty featureTable featureTableProperty
            propertyValue =
          .ok ({ gltf with
                  buffers := gltf.buffers ++
                    [{ byteLength := ((T.sizeOf * propertyValue.length : Nat) : Int),
                       data := packBytes T.sizeOf xs }],
                  bufferViews := gltf.bufferViews ++
                    [{ buffer := wrapInt32 gltf.buffers.length, byteOffset := 0,
                       byteStride := some (T.sizeOf : Int) }] },
               { classProperty with type := some typeName },
               { featureTableProperty with
                 bufferView := wrapInt32 gltf.bufferViews.length })) ∧
      ((∃ st : PropertyState,
          updateExtensionWithJsonProperty gltf classProperty featureTable featureTableProperty
            propertyValue = .ok st) ↔
        (featureTable.count = (propertyValue.length : Int) ∧
          T.sizeOf * propertyValue.length ≤ vectorMaxSize ∧
          ∃ xs : List Nat, propertyValue.map (castGet T) = xs.map Except.ok)) ∧
      (∀ st : PropertyState,
        updateExtensionWithJsonProperty gltf classProperty featureTable featureTableProperty
          propertyValue = .ok st →
        st.2.1.type = some typeName ∧
        ∃ buffer bufferView, st.1.buffers = gltf.buffers ++ [buffer] ∧
          st.1.bufferViews = gltf.bufferViews ++ [bufferView])) ∧
    (selectionPolicy (findCompatibleTypes propertyValue) = some (.numeric .int8 "INT8") →
      featureTable.count = (propertyValue.length : Int) →
      propertyValue.length ≤ vectorMaxSize →
      ∃ xs : List Nat,
        propertyValue.map (castGet .int8) = xs.map Except.ok ∧
        updateExtensionWithJsonProperty gltf classProperty featureTable featureTableProperty
            propertyValue =
          .ok ({ gltf with
                  buffers := gltf.buffers ++
                    [{ byteLength := (propertyValue.length : Int),
                       data := packBytes 1 xs }],
                  bufferViews := gltf.bufferViews ++
                    [{ buffer := wrapInt32 gltf.buffers.length, byteOffset := 0,
                       byteStride := some 1 }] },
               { classProperty with type := some "INT8" },
               { featureTableProperty with
                 bufferView := wrapInt32 gltf.bufferViews.length })) := by
  have hsel := jsonProperty_selection gltf classProperty featureTable featureTableProperty
    propertyValue h
  refine ⟨hsel, ?_, ?_⟩
  · intro T typeName hpolicy
    rw [hsel, hpolicy]
    refine ⟨?_, ⟨?_, ?_⟩, ?_⟩
    · intro xs hcount hsize hget
      exact numeric_ok T gltf classProperty featureTable featureTableProperty propertyValue
        typeName xs hcount hsize (forall2_of_map_castGet T propertyValue xs hget)
    · rintro ⟨st, hok⟩
      obtain ⟨hcount, hsize, xs, hget⟩ := numeric_inv _ _ _ _ _ _ _ _ hok
      exact ⟨hcount, hsize, xs, map_castGet_of_forall2 T propertyValue xs hget⟩
    · rintro ⟨hcount, hsize, xs, hget⟩
      exact ⟨_, numeric_ok T gltf classProperty featureTable featureTableProperty propertyValue
        typeName xs hcount hsize (forall2_of_map_castGet T propertyValue xs hget)⟩
    · intro st hok
      obtain ⟨happ, hcp, -⟩ := numeric_appends _ _ _ _ _ _ _ _ hok
      exact ⟨by rw [hcp], happ⟩
  · intro hpolicy hcount hsize
    have hflag := selectionPolicy_int8_flag _ _ hpolicy
    obtain ⟨xs, hget⟩ := int8_elements_cast propertyValue
      (foldl_isInt8_true propertyValue {} hflag).2
    refine ⟨xs, hget, ?_⟩
    rw [hsel, hpolicy]
    have hnum := numeric_ok .int8 gltf classProperty featureTable featureTableProperty
      propertyValue "INT8" xs hcount (by simpa [ElementType.sizeOf] using hsize)
      (forall2_of_map_castGet .int8 propertyValue xs hget)
    simpa [ElementType.sizeOf] using hnum

theorem C19_witness :
    reachesTypeSelection 3 [.int 1, .int 2, .int 300] = true ∧
    selectionPolicy (findCompatibleTypes [.int 1, .int 2, .int 300]) =
      some (.numeric .float "FLOAT32") ∧
    [Value.int 1, .int 2, .int 300].map (castGet .float) =
      [0x3F800000, 0x40000000, 0x43960000].map Except.ok ∧
    updateExtensionWithJsonProperty {} {} { count := 3 } {} [.int 1, .int 2, .int 300] =
      .ok ({ buffers := [{ byteLength := 12,
                           data := [0, 0, 128, 63, 0, 0, 0, 64, 0, 0, 150, 67] }],
             bufferViews := [{ buffer := 0, byteOffset := 0, byteStride := some 4 }] },
           { type := some "FLOAT32" }, { bufferView := 0 }) :=
  ⟨by decide, by decide, by decide,
   ((C19_selection_policy_first_true_flag {} {} { count := 3 } {} [.int 1, .int 2, .int 300]
      (by decide)).2.1 .float "FLOAT32" (by decide)).1 [0x3F800000, 0x40000000, 0x43960000]
      (by decide) (by decide) (by decide)⟩

/-- C20: evaluation on the array `[4, 5]` with feature count 1.  The array is not
shorter than the feature count, so it reaches the type selection and is dispatched to
the `INT8` packer, where `propertyValue.Size() == featureTable.count` does not hold: the
assertion fails (two elements for a one-byte buffer). -/
theorem C20_longer_array_fails_the_assertion :
    reachesTypeSelection 1 [.int 4, .int 5] = true ∧
    takesNumericPath 1 (.array [.int 4, .int 5]) = true ∧
    updateExtensionWithJsonProperty {} {} { count := 1 } {} [.int 4, .int 5] =
      updateExtensionWithJsonNumericProperty .int8 {} {} { count := 1 } {}
        [.int 4, .int 5] "INT8" ∧
    updateExtensionWithJsonProperty {} {} { count := 1 } {} [.int 4, .int 5] =
      .error .assertFailed := by
  decide

end Cesium3DTiles

namespace Cesium3DTiles

open rapidjson CesiumGltf

/-- C21: for every element that is a signed 64-bit integer, the two comparisons with
`2e24` and with `2e53` hold, so the loop body of `findCompatibleTypes` leaves the
float32 and float64 flags as they are; hence an array of signed 64-bit integers only,
empty or not, has both flags true in the result. -/
theorem C21_int64_elements_keep_float_flags (vals : List Int)
    (h : ∀ v ∈ vals, -2 ^ 63 ≤ v ∧ v < 2 ^ 63) :
    (∀ v ∈ vals,
      (doubleLE (negDouble lit2e24) (doubleOfInt v) && doubleLE (doubleOfInt v) lit2e24) = true ∧
      (doubleLE (negDouble lit2e53) (doubleOfInt v) && doubleLE (doubleOfInt v) lit2e53) = true ∧
      ∀ result : CompatibleTypes,
        (findCompatibleTypesStep result (.int v)).isFloat32 = result.isFloat32 ∧
        (findCompatibleTypesStep result (.int v)).isFloat64 = result.isFloat64) ∧
    (findCompatibleTypes (vals.map Value.int)).isFloat32 = true ∧
    (findCompatibleTypes (vals.map Value.int)).isFloat64 = true := by
  refine ⟨?_, ?_⟩
  · intro v hv
    obtain ⟨h1, h2⟩ := h v hv
    obtain ⟨hf32, hf64⟩ := int64_within_float_bounds v h1 h2
    exact ⟨hf32, hf64, fun result => step_int64_float_flags result v h1 h2⟩
  · exact foldl_int64_float_flags vals {} h

theorem C21_witness :
    (∀ v ∈ ([2 ^ 63 - 1, -2 ^ 63, 0] : List Int),
      (doubleLE (negDouble lit2e24) (doubleOfInt v) && doubleLE (doubleOfInt v) lit2e24) = true ∧
      (doubleLE (negDouble lit2e53) (doubleOfInt v) && doubleLE (doubleOfInt v) lit2e53) = true ∧
      ∀ result : CompatibleTypes,
        (findCompatibleTypesStep result (.int v)).isFloat32 = result.isFloat32 ∧
        (findCompatibleTypesStep result (.int v)).isFloat64 = result.isFloat64) ∧
    (findCompatibleTypes (([2 ^ 63 - 1, -2 ^ 63, 0] : List Int).map Value.int)).isFloat32 = true ∧
    (findCompatibleTypes (([2 ^ 63 - 1, -2 ^ 63, 0] : List Int).map Value.int)).isFloat64 = true :=
  C21_int64_elements_keep_float_flags [2 ^ 63 - 1, -2 ^ 63, 0] (by decide)

end Cesium3DTiles

namespace Cesium3DTilesSelection

/-- C22: in every state reachable from the initial state by calls of `createCredit`, of
`addCreditToFrame` with a handle `createCredit` has returned, and of `startNextFrame`,
the list of credits to show this frame has no duplicate and shares no credit with the
list of credits to no longer show this frame; in such a state `addCreditToFrame`
returns for every handle handed out. -/
theorem C22_frame_lists_stay_disjoint (self : CreditSystem) (handles : List Credit)
    (h : Reachable self handles) :
    self._creditsToShowThisFrame.Nodup ∧
    (∀ c ∈ self._creditsToShowThisFrame, c ∉ self._creditsToNoLongerShowThisFrame) ∧
    (∀ c ∈ handles, (self.addCreditToFrame c).isSome = true) := by
  have hinv := frameInvariant_of_reachable self handles h
  have hshow := hinv.2.2.1
  have hno := hinv.2.2.2.1
  have hnodup := hinv.2.2.2.2
  refine ⟨hnodup, ?_, fun c hc => addCreditToFrame_isSome self handles c hinv hc⟩
  intro c hc1 hc2
  obtain ⟨e1, hget1, hlast1⟩ := hshow c hc1
  obtain ⟨e2, hget2, hlast2⟩ := hno c hc2
  rw [hget1] at hget2
  simp only [Option.some.injEq] at hget2
  subst hget2
  exact wrapInt32_pred_ne self._currentFrameNumber (hlast2.symm.trans hlast1)

theorem C22_witness :
    frameExample._creditsToShowThisFrame.Nodup ∧
    (∀ c ∈ frameExample._creditsToShowThisFrame,
      c ∉ frameExample._creditsToNoLongerShowThisFrame) ∧
    (∀ c ∈ ([{ id := 1 }, { id := 0 }] : List Credit),
      (frameExample.addCreditToFrame c).isSome = true) :=
  C22_frame_lists_stay_disjoint frameExample [{ id := 1 }, { id := 0 }]
    (Reachable.add
      ({ _credits := [{ html := "a", lastFrameNumber := 0 }, { html := "b", lastFrameNumber := -1 }],
         _creditsToNoLongerShowThisFrame := [{ id := 0 }],
         _currentFrameNumber := 1 } : CreditSystem)
      frameExample [{ id := 1 }, { id := 0 }] { id := 1 }
      (Reachable.create
        ({ _credits := [{ html := "a", lastFrameNumber := 0 }],
           _creditsToNoLongerShowThisFrame := [{ id := 0 }],
           _currentFrameNumber := 1 } : CreditSystem)
        [{ id := 0 }] "b"
        (Reachable.nextFrame
          ({ _credits := [{ html := "a", lastFrameNumber := 0 }],
             _creditsToShowThisFrame := [{ id := 0 }] } : CreditSystem)
          [{ id := 0 }]
          (Reachable.add
            ({ _credits := [{ html := "a", lastFrameNumber := -1 }] } : CreditSystem)
            { _credits := [{ html := "a", lastFrameNumber := 0 }],
              _creditsToShowThisFrame := [{ id := 0 }] }
            [{ id := 0 }] { id := 0 }
            (Reachable.create {} [] "a" Reachable.start)
            (by decide) (by decide))))
      (by decide) (by decide))

end Cesium3DTilesSelection
